import Mathlib

/-!
Verification of the inventory reconciliation engine of the AAP Terraform
provider.

The definitions below are a shallow embedding of the Go source: the variable
codec (`VariablesMapToString` / `VariablesStringToMap`, with the behaviour of
Go `encoding/json` on values of type `map[string]string` modelled
explicitly), the name resolver (`GroupIdFromName`), the snapshot conversions
(`GroupsToSchema` / `HostsToSchema`), and the `Create` and `Update` paths of
the `aap_inventory` resource, modelled as trace-producing state transformers
over an abstract remote gateway.
-/

namespace AAPProvider

/-- Hex digit characters as used by Go `encoding/json` (lowercase). -/
def hexDigitChar (n : Nat) : Char :=
  if n < 10 then Char.ofNat (48 + n) else Char.ofNat (97 + (n - 10))

/-- Escaping of one character inside a JSON string literal, as performed by
Go `encoding/json` with its default HTML escaping: quote and backslash get a
backslash escape, newline, carriage return and tab use their short forms,
the remaining control characters and the HTML-sensitive characters use a
four-digit hex escape, and so do the line separators U+2028 and U+2029. -/
def escapeChar (c : Char) : List Char :=
  if c = '"' then ['\\', '"']
  else if c = '\\' then ['\\', '\\']
  else if c = '\n' then ['\\', 'n']
  else if c = '\r' then ['\\', 'r']
  else if c = '\t' then ['\\', 't']
  else if c.toNat < 32 ∨ c = '<' ∨ c = '>' ∨ c = '&' then
    ['\\', 'u', '0', '0', hexDigitChar (c.toNat / 16), hexDigitChar (c.toNat % 16)]
  else if c.toNat = 8232 ∨ c.toNat = 8233 then
    ['\\', 'u', '2', '0', '2', hexDigitChar (c.toNat % 16)]
  else [c]

/-- JSON string literal for a string: quote, escaped characters, quote. -/
def quoteChars (s : String) : List Char :=
  '"' :: (s.data.map escapeChar).flatten ++ ['"']

/-- Members of a JSON object built from key/value pairs, comma separated and
without whitespace, as laid out by Go `json.Marshal`. -/
def printMembers : List (String × String) → List Char
  | [] => []
  | [(k, v)] => quoteChars k ++ ':' :: quoteChars v
  | (k, v) :: p :: rest => quoteChars k ++ ':' :: quoteChars v ++ ',' :: printMembers (p :: rest)

/-- Order on object members used by Go when marshalling a map: string order
of the keys (UTF-8 byte order agrees with the character-wise order on code
points). -/
def keyOrder (p q : String × String) : Prop := p.1 ≤ q.1

instance : DecidableRel keyOrder := fun p q => inferInstanceAs (Decidable (p.1 ≤ q.1))

/-- Model of Go `json.Marshal` on a `map[string]string` value: the object
whose members are the map entries in sorted key order. -/
def goMarshalStringMap (m : List (String × String)) : String :=
  String.mk ('\x7b' :: printMembers (m.insertionSort keyOrder) ++ ['\x7d'])

/-- Reverse of the single-character escapes of a JSON string literal. -/
def unescapeChar (c : Char) : Option Char :=
  if c = '"' then some '"'
  else if c = '\\' then some '\\'
  else if c = '/' then some '/'
  else if c = 'n' then some '\n'
  else if c = 'r' then some '\r'
  else if c = 't' then some '\t'
  else if c = 'b' then some (Char.ofNat 8)
  else if c = 'f' then some (Char.ofNat 12)
  else none

/-- Numeric value of a hex digit character. -/
def hexVal (c : Char) : Option Nat :=
  if 48 ≤ c.toNat ∧ c.toNat ≤ 57 then some (c.toNat - 48)
  else if 97 ≤ c.toNat ∧ c.toNat ≤ 102 then some (c.toNat - 87)
  else if 65 ≤ c.toNat ∧ c.toNat ≤ 70 then some (c.toNat - 55)
  else none

/-- Body of a JSON string literal after the opening quote: returns the
decoded characters together with the input remaining after the closing
quote. -/
def parseStringBody : List Char → Option (List Char × List Char)
  | [] => none
  | c :: rest =>
    if c = '"' then some ([], rest)
    else if c = '\\' then
      match rest with
      | [] => none
      | e :: rest1 =>
        if e = 'u' then
          match rest1 with
          | h1 :: h2 :: h3 :: h4 :: rest2 =>
            match hexVal h1, hexVal h2, hexVal h3, hexVal h4 with
            | some a, some b, some c2, some d =>
              match parseStringBody rest2 with
              | some (s, r) => some (Char.ofNat (((a * 16 + b) * 16 + c2) * 16 + d) :: s, r)
              | none => none
            | _, _, _, _ => none
          | _ => none
        else
          match unescapeChar e with
          | some c1 =>
            match parseStringBody rest1 with
            | some (s, r) => some (c1 :: s, r)
            | none => none
          | none => none
    else
      match parseStringBody rest with
      | some (s, r) => some (c :: s, r)
      | none => none

/-- JSON string literal parser: expects an opening quote and returns the
decoded string together with the remaining input. -/
def parseJsonString (l : List Char) : Option (String × List Char) :=
  match l with
  | [] => none
  | c :: rest =>
    if c = '"' then
      match parseStringBody rest with
      | some (s, r) => some (String.mk s, r)
      | none => none
    else none

/-- Whitespace as skipped by the scanner of Go `encoding/json`. -/
def isJsonWs (c : Char) : Bool :=
  c == ' ' || c == '\t' || c == '\n' || c == '\r'

/-- Leading whitespace removal. -/
def skipWs : List Char → List Char
  | [] => []
  | c :: rest => if isJsonWs c then skipWs rest else c :: rest

/-- Members of a JSON object: string-colon-string pairs separated by commas
and terminated by the closing brace; returns the pairs in order together
with the input remaining after the brace. The fuel argument only bounds the
recursion depth; since every member consumes input, the fuel chosen by
`parseObjectBody` never runs out. -/
def parseMembersF : Nat → List Char → Option (List (String × String) × List Char)
  | 0, _ => none
  | fuel + 1, l =>
    match parseJsonString l with
    | none => none
    | some (k, r1) =>
      match r1 with
      | [] => none
      | c :: r2 =>
        if c = ':' then
          match parseJsonString r2 with
          | none => none
          | some (v, r3) =>
            match r3 with
            | [] => none
            | c2 :: r4 =>
              if c2 = ',' then
                match parseMembersF fuel r4 with
                | some (ms, r5) => some ((k, v) :: ms, r5)
                | none => none
              else if c2 = '\x7d' then some ([(k, v)], r4)
              else none
        else none

/-- Body of a JSON object after the opening brace: either immediately the
closing brace or a member list. -/
def parseObjectBody (l : List Char) : Option (List (String × String) × List Char) :=
  match l with
  | [] => none
  | c :: rest => if c = '\x7d' then some ([], rest) else parseMembersF (l.length + 1) l

/-- Insertion into an association list with Go map semantics: replace the
value in place when the key is present, append otherwise. -/
def assocPut (m : List (String × String)) (k v : String) : List (String × String) :=
  match m with
  | [] => [(k, v)]
  | (k1, v1) :: rest => if k1 = k then (k1, v) :: rest else (k1, v1) :: assocPut rest k v

/-- Final Go map contents after storing the listed object members in order
(a repeated key keeps its last value, as in Go `json.Unmarshal`). -/
def buildGoMap (ms : List (String × String)) : List (String × String) :=
  ms.foldl (fun acc kv => assocPut acc kv.1 kv.2) []

/-- Model of Go `json.Unmarshal` into a `map[string]string` value: accepts a
JSON object of strings or JSON null, optionally surrounded by whitespace,
and fails on anything else, in particular on empty input. Returns the map
contents (empty for null, since Go leaves the target map nil). -/
def goUnmarshalStringMap (s : String) : Option (List (String × String)) :=
  match skipWs s.data with
  | [] => none
  | c :: rest =>
    if c = '\x7b' then
      match parseObjectBody rest with
      | some (ms, r) => if skipWs r = [] then some (buildGoMap ms) else none
      | none => none
    else if c = 'n' then
      match rest with
      | c1 :: c2 :: c3 :: r =>
        if c1 = 'u' ∧ c2 = 'l' ∧ c3 = 'l' ∧ skipWs r = [] then some [] else none
      | _ => none
    else none

/-- Terraform framework map value for a variables attribute: either the null
map or a known map, the known case represented canonically by its entries in
sorted key order. -/
abbrev TfMap := Option (List (String × String))

/-- Embedding of `VariablesMapToString` from aap_inventory_resource.go: the
entries of the variables map are marshalled with `json.Marshal`, which
cannot fail on a `map[string]string` value, so the encoder is total; an
empty map marshals to the two-character empty-object string. -/
def VariablesMapToString (vars : List (String × String)) : String :=
  goMarshalStringMap vars

/-- Embedding of `VariablesStringToMap` from aap_inventory_resource.go: the
wire string is unmarshalled with `json.Unmarshal`; on failure an error
diagnostic is reported, and a map with no entries is returned as the null
map value rather than as an empty known map. -/
def VariablesStringToMap (vars : String) : Except String TfMap :=
  match goUnmarshalStringMap vars with
  | none => Except.error ("Could not convert variables string to map, unexpected error: invalid JSON")
  | some m =>
    if 0 < m.length then Except.ok (some (m.insertionSort keyOrder)) else Except.ok none

/-- Strict key order on entries, compared character-wise: the canonical
representation of an unordered string map is its entry list strictly
sorted by key. -/
def strictKeyLt (p q : String × String) : Prop := p.1.data < q.1.data

/-- Remote entity model for an AAP group (client.go); the wire field name of
`vars` in the source is Variables. -/
structure AapGroup where
  id : Int
  inventory : Int
  name : String
  children : List String
  description : String
  vars : String

deriving DecidableEq

/-- Remote entity model for an AAP host (client.go). -/
structure AapHost where
  id : Int
  inventory : Int
  name : String
  groups : List String
  description : String
  vars : String

deriving DecidableEq

/-- Remote entity model for an AAP inventory (client.go). -/
structure AapInventory where
  id : Int
  organization : Int
  name : String
  description : String
  vars : String

deriving DecidableEq

/-- Remote calls issued by the engine through the client (client.go). -/
inductive Call where
  | createInventory (inv : AapInventory)
  | updateInventory (invId : Int) (inv : AapInventory)
  | getInventoryGroups (invId : Int)
  | createGroup (g : AapGroup)
  | updateGroup (groupId : Int) (g : AapGroup)
  | deleteGroup (groupId : Int)
  | getGroupChildren (groupId : Int)
  | addChildToGroup (parentId : Int) (childId : Int)
  | removeChildFromGroup (parentId : Int) (childId : Int)
  | getInventoryHosts (invId : Int)
  | createHost (h : AapHost)
  | updateHost (hostId : Int) (h : AapHost)
  | deleteHost (hostId : Int)
  | getHostGroups (hostId : Int)
  | addGroupToHost (hostId : Int) (groupId : Int)
  | removeGroupFromHost (hostId : Int) (groupId : Int)

deriving DecidableEq

/-- Response carried by a successful call, or the error of a failed one. -/
inductive Outcome where
  | invResp (inv : AapInventory)
  | groupResp (g : AapGroup)
  | hostResp (h : AapHost)
  | groupsResp (gs : List AapGroup)
  | hostsResp (hs : List AapHost)
  | okResp
  | errResp (msg : String)

deriving DecidableEq

/-- One issued remote call together with its outcome. -/
structure Event where
  call : Call
  outcome : Outcome

deriving DecidableEq

/-- True exactly on events whose call failed. -/
def Event.hasErr (ev : Event) : Bool :=
  match ev.outcome with
  | Outcome.errResp _ => true
  | _ => false

/-- Abstract remote gateway: one state-passing operation per client call of
client.go; each may fail with a transport or status error string. -/
structure Gateway (σ : Type) where
  createInventory : AapInventory → σ → Except String (AapInventory × σ)
  updateInventory : Int → AapInventory → σ → Except String (AapInventory × σ)
  getInventoryGroups : Int → σ → Except String (List AapGroup × σ)
  createGroup : AapGroup → σ → Except String (AapGroup × σ)
  updateGroup : Int → AapGroup → σ → Except String (AapGroup × σ)
  deleteGroup : Int → σ → Except String σ
  getGroupChildren : Int → σ → Except String (List AapGroup × σ)
  addChildToGroup : Int → Int → σ → Except String σ
  removeChildFromGroup : Int → Int → σ → Except String σ
  getInventoryHosts : Int → σ → Except String (List AapHost × σ)
  createHost : AapHost → σ → Except String (AapHost × σ)
  updateHost : Int → AapHost → σ → Except String (AapHost × σ)
  deleteHost : Int → σ → Except String σ
  getHostGroups : Int → σ → Except String (List AapGroup × σ)
  addGroupToHost : Int → Int → σ → Except String σ
  removeGroupFromHost : Int → Int → σ → Except String σ

/-- Engine computations: state passing over the gateway state, producing the
ordered list of issued calls with outcomes, the final gateway state, and
either a value or the first error; an error aborts the remainder, mirroring
the early returns of the Go source. -/
def EngM (σ : Type) (α : Type) : Type :=
  σ → List Event × σ × Except String α

def EngM.pure (a : α) : EngM σ α := fun s => ([], s, Except.ok a)

def EngM.bind (x : EngM σ α) (f : α → EngM σ β) : EngM σ β := fun s =>
  match x s with
  | (t, s1, Except.error e) => (t, s1, Except.error e)
  | (t, s1, Except.ok a) =>
    match f a s1 with
    | (t2, s2, r) => (t ++ t2, s2, r)

/-- Abort without a remote call (used for name resolution failures and
conversion failures, which the Go source turns into diagnostics). -/
def EngM.abort (msg : String) : EngM σ α := fun s => ([], s, Except.error msg)

/-- Events of a run. -/
def EngM.events (x : EngM σ α) (s : σ) : List Event := (x s).1

/-- Final gateway state of a run. -/
def EngM.finalState (x : EngM σ α) (s : σ) : σ := (x s).2.1

/-- Result of a run. -/
def EngM.result (x : EngM σ α) (s : σ) : Except String α := (x s).2.2

/-- Issue one gateway call returning a response value: the event is recorded
with its outcome, and a failed call surfaces its error behind the context
string used for the diagnostic at the Go call site. -/
def gwCall (call : Call) (toOut : ρ → Outcome) (ctx : String)
    (act : σ → Except String (ρ × σ)) : EngM σ ρ := fun s =>
  match act s with
  | Except.error e => ([Event.mk call (Outcome.errResp e)], s, Except.error (ctx ++ e))
  | Except.ok (r, s1) => ([Event.mk call (toOut r)], s1, Except.ok r)

/-- Issue one gateway call with no response payload. -/
def gwCallUnit (call : Call) (ctx : String) (act : σ → Except String σ) :
    EngM σ Unit := fun s =>
  match act s with
  | Except.error e => ([Event.mk call (Outcome.errResp e)], s, Except.error (ctx ++ e))
  | Except.ok s1 => ([Event.mk call Outcome.okResp], s1, Except.ok ())

/-- Lift a fallible pure conversion into the engine. -/
def engOfExcept (x : Except String α) : EngM σ α :=
  match x with
  | Except.error e => EngM.abort e
  | Except.ok a => EngM.pure a

/-- Sequential loop collecting results, stopping at the first error, as the
Go range loops with early returns do. -/
def engMapM (f : α → EngM σ β) : List α → EngM σ (List β)
  | [] => EngM.pure []
  | a :: as =>
    EngM.bind (f a) (fun b => EngM.bind (engMapM f as) (fun bs => EngM.pure (b :: bs)))

/-- Sequential loop for effects only. -/
def engForM (f : α → EngM σ Unit) : List α → EngM σ Unit
  | [] => EngM.pure ()
  | a :: as => EngM.bind (f a) (fun _ => engForM f as)

/-- Embedding of `GroupIdFromName` (aap_inventory_resource.go lines 577 to
586): scan the group slice in order, first name match wins; a missing name
yields a NotFound-style error and no id. -/
def GroupIdFromName (name : String) (groups : List AapGroup) : Except String Int :=
  match groups with
  | [] => Except.error ("unable to retrieve ID for group named " ++ name)
  | g :: rest => if g.name = name then Except.ok g.id else GroupIdFromName name rest

/-- Declared group from the Terraform plan after schema extraction: carried
id (stale or zero for a group not yet created), name, declared child names,
description and variables entries (empty for null). -/
structure PlanGroup where
  id : Int
  name : String
  children : List String
  description : String
  vars : List (String × String)

deriving DecidableEq

/-- Declared host from the Terraform plan after schema extraction. -/
structure PlanHost where
  id : Int
  name : String
  groups : List String
  description : String
  vars : List (String × String)

deriving DecidableEq

/-- Declared inventory plan after schema extraction. -/
structure Plan where
  id : Int
  organization : Int
  name : String
  description : String
  vars : List (String × String)
  groups : List PlanGroup
  hosts : List PlanHost

deriving DecidableEq

/-- Snapshot shape of one group as produced by `GroupsToSchema`: children,
description and variables collapse to null when empty. -/
structure SchemaGroup where
  id : Int
  inventory : Int
  name : String
  children : Option (List String)
  description : Option String
  vars : TfMap

deriving DecidableEq

/-- Snapshot shape of one host as produced by `HostsToSchema`. -/
structure SchemaHost where
  id : Int
  inventory : Int
  name : String
  groups : Option (List String)
  description : Option String
  vars : TfMap

deriving DecidableEq

/-- Snapshot persisted as the new Terraform state. -/
structure Snapshot where
  id : Int
  organization : Int
  name : String
  description : Option String
  vars : TfMap
  groups : List SchemaGroup
  hosts : List SchemaHost

deriving DecidableEq

/-- Embedding of the per-group conversion of `GroupsToSchema`
(aap_inventory_resource.go lines 589 to 633): the variables string of the
group record is decoded back to a map value, and empty children,
description and variables stay null. -/
def groupToSchema (g : AapGroup) : Except String SchemaGroup :=
  match VariablesStringToMap g.vars with
  | Except.error e => Except.error e
  | Except.ok vs =>
    Except.ok
      { id := g.id, inventory := g.inventory, name := g.name,
        children := if g.children.isEmpty then none else some g.children,
        description := if g.description = "" then none else some g.description,
        vars := vs }

/-- Embedding of `GroupsToSchema`: convert each group, stopping at the first
conversion error. -/
def GroupsToSchema : List AapGroup → Except String (List SchemaGroup)
  | [] => Except.ok []
  | g :: rest =>
    match groupToSchema g with
    | Except.error e => Except.error e
    | Except.ok sg =>
      match GroupsToSchema rest with
      | Except.error e => Except.error e
      | Except.ok sgs => Except.ok (sg :: sgs)

/-- Embedding of the per-host conversion of `HostsToSchema`
(aap_inventory_resource.go lines 635 to 679). -/
def hostToSchema (h : AapHost) : Except String SchemaHost :=
  match VariablesStringToMap h.vars with
  | Except.error e => Except.error e
  | Except.ok vs =>
    Except.ok
      { id := h.id, inventory := h.inventory, name := h.name,
        groups := if h.groups.isEmpty then none else some h.groups,
        description := if h.description = "" then none else some h.description,
        vars := vs }

/-- Embedding of `HostsToSchema`. -/
def HostsToSchema : List AapHost → Except String (List SchemaHost)
  | [] => Except.ok []
  | h :: rest =>
    match hostToSchema h with
    | Except.error e => Except.error e
    | Except.ok sh =>
      match HostsToSchema rest with
      | Except.error e => Except.error e
      | Except.ok shs => Except.ok (sh :: shs)

/-- Group request payload built in the Create and Update group loops: scoped
to the inventory id, carrying the name, description and encoded variables
of the declared group. -/
def groupRequest (invId : Int) (pg : PlanGroup) : AapGroup :=
  { id := 0, inventory := invId, name := pg.name, children := [],
    description := pg.description, vars := VariablesMapToString pg.vars }

/-- Host request payload built in the Create and Update host loops. -/
def hostRequest (invId : Int) (ph : PlanHost) : AapHost :=
  { id := 0, inventory := invId, name := ph.name, groups := [],
    description := ph.description, vars := VariablesMapToString ph.vars }

/-- Create path, one iteration of the group creation loop (part_001 Create,
lines 215 to 272): the declared group is created remotely and recorded with
the assigned id and its declared children names. -/
def createOneGroup (gw : Gateway σ) (invId : Int) (pg : PlanGroup) : EngM σ AapGroup :=
  let g := groupRequest invId pg
  EngM.bind
    (gwCall (Call.createGroup g) Outcome.groupResp
      ("Could not create AAP group, unexpected error: ") (gw.createGroup g))
    (fun newGroup => EngM.pure { g with id := newGroup.id, children := pg.children })

/-- Create path, group creation loop over all declared groups. -/
def createGroupsPhase (gw : Gateway σ) (invId : Int) (pgs : List PlanGroup) :
    EngM σ (List AapGroup) :=
  engMapM (createOneGroup gw invId) pgs

/-- Create path, child association loop for one created group (lines 274 to
296): each declared child name is resolved in the created group set and
associated to the parent. -/
def createAddChildStep (gw : Gateway σ) (newGroups : List AapGroup) (g : AapGroup)
    (childName : String) : EngM σ Unit :=
  match GroupIdFromName childName newGroups with
  | Except.error e =>
    EngM.abort ("Could not retrieve ID for child group, unexpected error: " ++ e)
  | Except.ok childId =>
    gwCallUnit (Call.addChildToGroup g.id childId)
      ("Could not create AAP group child, unexpected error: ")
      (gw.addChildToGroup g.id childId)

/-- Create path, child association loop for one created group. -/
def addChildrenOfGroup (gw : Gateway σ) (newGroups : List AapGroup) (g : AapGroup) :
    EngM σ Unit :=
  engForM (createAddChildStep gw newGroups g) g.children

/-- Create path, child association loop over all created groups. -/
def associateChildrenPhase (gw : Gateway σ) (newGroups : List AapGroup) : EngM σ Unit :=
  engForM (addChildrenOfGroup gw newGroups) newGroups

/-- Create path, one iteration of the host creation loop (lines 326 to 384). -/
def createOneHost (gw : Gateway σ) (invId : Int) (ph : PlanHost) : EngM σ AapHost :=
  let hreq := hostRequest invId ph
  EngM.bind
    (gwCall (Call.createHost hreq) Outcome.hostResp
      ("Could not create AAP host, unexpected error: ") (gw.createHost hreq))
    (fun newHost => EngM.pure { hreq with id := newHost.id, groups := ph.groups })

/-- Create path, host creation loop over all declared hosts. -/
def createHostsPhase (gw : Gateway σ) (invId : Int) (phs : List PlanHost) :
    EngM σ (List AapHost) :=
  engMapM (createOneHost gw invId) phs

/-- Create path, group association loop for one created host (lines 386 to
408): each declared group name is resolved in the created group set and the
group is added to the host. -/
def createAddHostGroupStep (gw : Gateway σ) (newGroups : List AapGroup) (h : AapHost)
    (groupName : String) : EngM σ Unit :=
  match GroupIdFromName groupName newGroups with
  | Except.error e =>
    EngM.abort ("Could not retrieve ID for host group, unexpected error: " ++ e)
  | Except.ok groupId =>
    gwCallUnit (Call.addGroupToHost h.id groupId)
      ("Could not add AAP group to host, unexpected error: ")
      (gw.addGroupToHost h.id groupId)

/-- Create path, group association loop for one created host. -/
def addGroupsOfHost (gw : Gateway σ) (newGroups : List AapGroup) (h : AapHost) :
    EngM σ Unit :=
  engForM (createAddHostGroupStep gw newGroups h) h.groups

/-- Create path, group association loop over all created hosts. -/
def associateHostGroupsPhase (gw : Gateway σ) (newGroups : List AapGroup)
    (newHosts : List AapHost) : EngM σ Unit :=
  engForM (addGroupsOfHost gw newGroups) newHosts

/-- Snapshot assembly from the inventory response, its decoded variables and
the schema forms of groups and hosts; an empty description stays null. -/
def buildSnapshot (inv : AapInventory) (invVars : TfMap) (sgs : List SchemaGroup)
    (shs : List SchemaHost) : Snapshot :=
  { id := inv.id, organization := inv.organization, name := inv.name,
    description := if inv.description = "" then none else some inv.description,
    vars := invVars, groups := sgs, hosts := shs }

/-- Create path of the aap_inventory resource (part_001 `Create`, lines 139
to 430): create the inventory with default organization 1, decode the
returned inventory variables, create all declared groups, associate all
declared children, convert groups to schema, create all declared hosts,
associate all declared host groups, convert hosts to schema, and return the
snapshot that is persisted as the new state. -/
def runCreate (gw : Gateway σ) (plan : Plan) : EngM σ Snapshot :=
  let invReq : AapInventory :=
    { id := 0, organization := 1, name := plan.name, description := plan.description,
      vars := VariablesMapToString plan.vars }
  EngM.bind
    (gwCall (Call.createInventory invReq) Outcome.invResp
      ("Could not create AAP inventory, unexpected error: ") (gw.createInventory invReq))
    (fun newInventory =>
  EngM.bind (engOfExcept (VariablesStringToMap newInventory.vars))
    (fun invVars =>
  EngM.bind (createGroupsPhase gw newInventory.id plan.groups)
    (fun newGroups =>
  EngM.bind (associateChildrenPhase gw newGroups)
    (fun _ =>
  EngM.bind (engOfExcept (GroupsToSchema newGroups))
    (fun sgs =>
  EngM.bind (createHostsPhase gw newInventory.id plan.hosts)
    (fun newHosts =>
  EngM.bind (associateHostGroupsPhase gw newGroups newHosts)
    (fun _ =>
  EngM.bind (engOfExcept (HostsToSchema newHosts))
    (fun shs =>
  EngM.pure (buildSnapshot newInventory invVars sgs shs)))))))))

/-- Update path, one iteration of the group create-or-update loop (part_001
Update, lines 657 to 729): a declared group whose carried id is absent from
the current remote set is created, any other is updated by that id; the
recorded group keeps the returned id and the declared children. -/
def createOrUpdateGroup (gw : Gateway σ) (invId : Int) (currentGroups : List AapGroup)
    (pg : PlanGroup) : EngM σ AapGroup :=
  let g := groupRequest invId pg
  EngM.bind
    (if currentGroups.any (fun cg => cg.id == pg.id) then
      gwCall (Call.updateGroup pg.id g) Outcome.groupResp
        ("Could not update AAP group " ++ g.name ++ ", unexpected error: ")
        (gw.updateGroup pg.id g)
    else
      gwCall (Call.createGroup g) Outcome.groupResp
        ("Could not create AAP group " ++ g.name ++ ", unexpected error: ")
        (gw.createGroup g))
    (fun updatedGroup => EngM.pure { g with id := updatedGroup.id, children := pg.children })

/-- Update path, stale group deletion loop (lines 731 to 745): every current
remote group whose id is not among the reconciled groups is deleted. -/
def deleteGroupStep (gw : Gateway σ) (updatedGroups : List AapGroup) (cg : AapGroup) :
    EngM σ Unit :=
  if updatedGroups.any (fun g => g.id == cg.id) then EngM.pure ()
  else
    gwCallUnit (Call.deleteGroup cg.id)
      ("Could not delete group " ++ cg.name ++ ", unexpected error: ")
      (gw.deleteGroup cg.id)

/-- Update path, stale group deletion loop over the current remote groups. -/
def deleteAbsentGroupsPhase (gw : Gateway σ) (currentGroups updatedGroups : List AapGroup) :
    EngM σ Unit :=
  engForM (deleteGroupStep gw updatedGroups) currentGroups

/-- Update path, one declared child inside the child reconciliation loop
(lines 761 to 784): a child name already present among the current remote
children is skipped; otherwise its id is resolved in the reconciled group
set and the child is associated. -/
def addChildStep (gw : Gateway σ) (updatedGroups : List AapGroup) (g : AapGroup)
    (currentChildren : List AapGroup) (childName : String) : EngM σ Unit :=
  if currentChildren.any (fun c => c.name == childName) then EngM.pure ()
  else
    match GroupIdFromName childName updatedGroups with
    | Except.error e =>
      EngM.abort ("Could not retrieve ID for child group " ++ childName ++
        ", unexpected error: " ++ e)
    | Except.ok childId =>
      gwCallUnit (Call.addChildToGroup g.id childId)
        ("Could not add child " ++ childName ++ " to group " ++ g.name ++
          ", unexpected error: ")
        (gw.addChildToGroup g.id childId)

/-- Update path, one current remote child inside the child reconciliation
loop (lines 786 to 799): a remote child still declared is kept; otherwise it
is disassociated by its id. -/
def removeChildStep (gw : Gateway σ) (g : AapGroup) (child : AapGroup) : EngM σ Unit :=
  if g.children.contains child.name then EngM.pure ()
  else
    gwCallUnit (Call.removeChildFromGroup g.id child.id)
      ("Could not remove child " ++ child.name ++ " from group " ++ g.name ++
        ", unexpected error: ")
      (gw.removeChildFromGroup g.id child.id)

/-- Update path, child reconciliation for one reconciled group (lines 747 to
800): fetch the current remote children; associate every declared child
missing remotely, resolving its id in the reconciled group set; then
disassociate every remote child that is no longer declared. -/
def reconcileGroupChildren (gw : Gateway σ) (updatedGroups : List AapGroup) (g : AapGroup) :
    EngM σ Unit :=
  EngM.bind
    (gwCall (Call.getGroupChildren g.id) Outcome.groupsResp
      ("Could not retrieve current children for group " ++ g.name ++ ", unexpected error: ")
      (gw.getGroupChildren g.id))
    (fun currentChildren =>
  EngM.bind (engForM (addChildStep gw updatedGroups g currentChildren) g.children)
    (fun _ => engForM (removeChildStep gw g) currentChildren))

/-- Update path, child reconciliation over all reconciled groups. -/
def reconcileChildrenPhase (gw : Gateway σ) (updatedGroups : List AapGroup) : EngM σ Unit :=
  engForM (reconcileGroupChildren gw updatedGroups) updatedGroups

/-- Update path, one iteration of the host create-or-update loop (lines 840
to 912). -/
def createOrUpdateHost (gw : Gateway σ) (invId : Int) (currentHosts : List AapHost)
    (ph : PlanHost) : EngM σ AapHost :=
  let hreq := hostRequest invId ph
  EngM.bind
    (if currentHosts.any (fun ch => ch.id == ph.id) then
      gwCall (Call.updateHost ph.id hreq) Outcome.hostResp
        ("Could not update AAP host " ++ hreq.name ++ ", unexpected error: ")
        (gw.updateHost ph.id hreq)
    else
      gwCall (Call.createHost hreq) Outcome.hostResp
        ("Could not create AAP host " ++ hreq.name ++ ", unexpected error: ")
        (gw.createHost hreq))
    (fun updatedHost => EngM.pure { hreq with id := updatedHost.id, groups := ph.groups })

/-- Update path, stale host deletion loop (lines 914 to 928); the error
context in the source reads group even though it deletes a host. -/
def deleteHostStep (gw : Gateway σ) (updatedHosts : List AapHost) (ch : AapHost) :
    EngM σ Unit :=
  if updatedHosts.any (fun h => h.id == ch.id) then EngM.pure ()
  else
    gwCallUnit (Call.deleteHost ch.id)
      ("Could not delete group " ++ ch.name ++ ", unexpected error: ")
      (gw.deleteHost ch.id)

/-- Update path, stale host deletion loop over the current remote hosts. -/
def deleteAbsentHostsPhase (gw : Gateway σ) (currentHosts updatedHosts : List AapHost) :
    EngM σ Unit :=
  engForM (deleteHostStep gw updatedHosts) currentHosts

/-- Update path, one declared host group inside the membership
reconciliation loop (lines 944 to 967): a group name already among the
current remote groups of the host is skipped; otherwise its id is resolved
in the reconciled group set and added to the host. -/
def addHostGroupStep (gw : Gateway σ) (updatedGroups : List AapGroup) (h : AapHost)
    (currentHostGroups : List AapGroup) (groupName : String) : EngM σ Unit :=
  if currentHostGroups.any (fun g => g.name == groupName) then EngM.pure ()
  else
    match GroupIdFromName groupName updatedGroups with
    | Except.error e =>
      EngM.abort ("Could not retrieve ID for host group " ++ groupName ++
        ", unexpected error: " ++ e)
    | Except.ok hostGroupId =>
      gwCallUnit (Call.addGroupToHost h.id hostGroupId)
        ("Could not add group " ++ groupName ++ " to host " ++ h.name ++
          ", unexpected error: ")
        (gw.addGroupToHost h.id hostGroupId)

/-- Update path, one current remote host group inside the membership
reconciliation loop (lines 969 to 982). -/
def removeHostGroupStep (gw : Gateway σ) (h : AapHost) (hostGroup : AapGroup) :
    EngM σ Unit :=
  if h.groups.contains hostGroup.name then EngM.pure ()
  else
    gwCallUnit (Call.removeGroupFromHost h.id hostGroup.id)
      ("Could not remove group " ++ hostGroup.name ++ " from host " ++ h.name ++
        ", unexpected error: ")
      (gw.removeGroupFromHost h.id hostGroup.id)

/-- Update path, group membership reconciliation for one reconciled host
(lines 930 to 983): fetch the current remote groups of the host; add every
declared group missing remotely, resolving its id in the reconciled group
set; then remove every remote group no longer declared. -/
def reconcileHostGroups (gw : Gateway σ) (updatedGroups : List AapGroup) (h : AapHost) :
    EngM σ Unit :=
  EngM.bind
    (gwCall (Call.getHostGroups h.id) Outcome.groupsResp
      ("Could not retrieve current groups for host " ++ h.name ++ ", unexpected error: ")
      (gw.getHostGroups h.id))
    (fun currentHostGroups =>
  EngM.bind (engForM (addHostGroupStep gw updatedGroups h currentHostGroups) h.groups)
    (fun _ => engForM (removeHostGroupStep gw h) currentHostGroups))

/-- Update path, group membership reconciliation over all reconciled hosts. -/
def reconcileHostGroupsPhase (gw : Gateway σ) (updatedGroups : List AapGroup)
    (updatedHosts : List AapHost) : EngM σ Unit :=
  engForM (reconcileHostGroups gw updatedGroups) updatedHosts

/-- Update path of the aap_inventory resource (part_001 `Update`, lines 570
to 1005): update the inventory by its carried id, decode the returned
variables, fetch the current groups, create or update each declared group
by carried id, delete stale groups, reconcile children of every group,
convert groups to schema, then the same sequence for hosts against the
reconciled group set, and return the snapshot that is persisted. -/
def runUpdate (gw : Gateway σ) (plan : Plan) : EngM σ Snapshot :=
  let invReq : AapInventory :=
    { id := 0, organization := plan.organization, name := plan.name,
      description := plan.description, vars := VariablesMapToString plan.vars }
  EngM.bind
    (gwCall (Call.updateInventory plan.id invReq) Outcome.invResp
      ("Could not update AAP inventory, unexpected error: ")
      (gw.updateInventory plan.id invReq))
    (fun updatedInventory =>
  EngM.bind (engOfExcept (VariablesStringToMap updatedInventory.vars))
    (fun invVars =>
  EngM.bind
    (gwCall (Call.getInventoryGroups plan.id) Outcome.groupsResp
      ("Could not retrieve groups for inventory " ++ invReq.name ++ ", unexpected error: ")
      (gw.getInventoryGroups plan.id))
    (fun currentGroups =>
  EngM.bind (engMapM (createOrUpdateGroup gw updatedInventory.id currentGroups) plan.groups)
    (fun updatedGroups =>
  EngM.bind (deleteAbsentGroupsPhase gw currentGroups updatedGroups)
    (fun _ =>
  EngM.bind (reconcileChildrenPhase gw updatedGroups)
    (fun _ =>
  EngM.bind (engOfExcept (GroupsToSchema updatedGroups))
    (fun sgs =>
  EngM.bind
    (gwCall (Call.getInventoryHosts plan.id) Outcome.hostsResp
      ("Could not retrieve hosts for inventory " ++ invReq.name ++ ", unexpected error: ")
      (gw.getInventoryHosts plan.id))
    (fun currentHosts =>
  EngM.bind (engMapM (createOrUpdateHost gw updatedInventory.id currentHosts) plan.hosts)
    (fun updatedHosts =>
  EngM.bind (deleteAbsentHostsPhase gw currentHosts updatedHosts)
    (fun _ =>
  EngM.bind (reconcileHostGroupsPhase gw updatedGroups updatedHosts)
    (fun _ =>
  EngM.bind (engOfExcept (HostsToSchema updatedHosts))
    (fun shs =>
  EngM.pure (buildSnapshot updatedInventory invVars sgs shs)))))))))))))

/-- Persisted Terraform state after one pass: resp.State.Set runs only at
the very end of the success path, so a failed pass keeps the previously
persisted state unchanged. -/
def persistedState (prev : Option Snapshot) (result : Except String Snapshot) :
    Option Snapshot :=
  match result with
  | Except.ok snap => some snap
  | Except.error _ => prev

/-- A group with the given assigned id was created within the listed events:
some successful createGroup call returned it. -/
def GroupCreatedIn (t : List Event) (i : Int) : Prop :=
  ∃ req resp, Event.mk (Call.createGroup req) (Outcome.groupResp resp) ∈ t ∧ resp.id = i

/-- A host with the given assigned id was created within the listed events. -/
def HostCreatedIn (t : List Event) (i : Int) : Prop :=
  ∃ req resp, Event.mk (Call.createHost req) (Outcome.hostResp resp) ∈ t ∧ resp.id = i

/-- Walking the second list of events with the first as the already-emitted
past: every association call has both endpoints already created when it is
issued. -/
def AssocAfterCreates : List Event → List Event → Prop
  | _, [] => True
  | past, ev :: rest =>
    (∀ p c, ev.call = Call.addChildToGroup p c →
      GroupCreatedIn past p ∧ GroupCreatedIn past c) ∧
    (∀ hid gid, ev.call = Call.addGroupToHost hid gid →
      HostCreatedIn past hid ∧ GroupCreatedIn past gid) ∧
    AssocAfterCreates (past ++ [ev]) rest

/-- Id a name resolves to in a group set, with zero for the error case. -/
def resolvedId (name : String) (groups : List AapGroup) : Int :=
  match GroupIdFromName name groups with
  | Except.ok i => i
  | Except.error _ => 0

/-- True exactly on calls that list the children of a group. -/
def Call.isFetchChildren : Call → Bool
  | Call.getGroupChildren _ => true
  | _ => false

/-- True exactly on calls that list the groups of a host. -/
def Call.isFetchHostGroups : Call → Bool
  | Call.getHostGroups _ => true
  | _ => false

/-- Every listed call succeeded. -/
def EventsOk (t : List Event) : Prop := ∀ ev ∈ t, ev.hasErr = false

/-- Every listed call except possibly the last succeeded: once a call fails
no further call is issued. -/
def OkUntilLast (t : List Event) : Prop := ∀ ev ∈ t.dropLast, ev.hasErr = false

/-- Fail-fast contract of an engine computation: a successful run has only
successful calls, any run has at most one failed call and it is the last
one, and when the run fails right at a failed call the surfaced error is
that call's error behind a context prefix. -/
def WellBehaved {σ α : Type} (x : EngM σ α) : Prop :=
  (∀ s t s1 a, x s = (t, s1, Except.ok a) → EventsOk t) ∧
  (∀ s, OkUntilLast (x s).1) ∧
  (∀ s t1 call msg e, (x s).1 = t1 ++ [Event.mk call (Outcome.errResp msg)] →
    (x s).2.2 = Except.error e → ∃ ctx, e = ctx ++ msg)

instance : DecidableRel strictKeyLt :=
  fun p q => inferInstanceAs (Decidable (p.1.data < q.1.data))

/-- Lookup in a framework map value: the null map holds no keys. -/
def tfMapLookup (tm : TfMap) (k : String) : Option String :=
  match tm with
  | none => none
  | some l => l.lookup k

/-- Lookup through the decoder, for stating the round-trip law at the level
of mappings: a decode failure or a null map yields no binding. -/
def decodeLookup (s : String) (k : String) : Option String :=
  match VariablesStringToMap s with
  | Except.error _ => none
  | Except.ok tm => tfMapLookup tm k

deriving instance DecidableEq for Except

/-- Fixture group for concrete runs. -/
def fixGroup (i : Int) (n : String) (cs : List String) : AapGroup :=
  { id := i, inventory := 1, name := n, children := cs, description := "", vars := "null" }

/-- Fixture host for concrete runs. -/
def fixHost (i : Int) (n : String) (gs : List String) : AapHost :=
  { id := i, inventory := 1, name := n, groups := gs, description := "", vars := "null" }

/-- Fixture plan group. -/
def fixPlanGroup (i : Int) (n : String) (cs : List String) : PlanGroup :=
  { id := i, name := n, children := cs, description := "", vars := [] }

/-- Fixture plan host. -/
def fixPlanHost (i : Int) (n : String) (gs : List String) : PlanHost :=
  { id := i, name := n, groups := gs, description := "", vars := [] }

/-- Fixture gateway over a call-counting state: lookups return the canned
lists, mutations succeed, and creations assign fresh ids from the counter. -/
def fixGw (invGroups0 children0 hostGroups0 : List AapGroup)
    (invHosts0 : List AapHost) : Gateway Nat :=
  { createInventory := fun inv s => Except.ok ({ inv with id := 1, vars := "null" }, s + 1),
    updateInventory := fun i inv s => Except.ok ({ inv with id := i, vars := "null" }, s + 1),
    getInventoryGroups := fun _ s => Except.ok (invGroups0, s),
    createGroup := fun g s => Except.ok ({ g with id := Int.ofNat (100 + s) }, s + 1),
    updateGroup := fun i g s => Except.ok ({ g with id := i }, s + 1),
    deleteGroup := fun _ s => Except.ok (s + 1),
    getGroupChildren := fun _ s => Except.ok (children0, s),
    addChildToGroup := fun _ _ s => Except.ok (s + 1),
    removeChildFromGroup := fun _ _ s => Except.ok (s + 1),
    getInventoryHosts := fun _ s => Except.ok (invHosts0, s),
    createHost := fun h s => Except.ok ({ h with id := Int.ofNat (200 + s) }, s + 1),
    updateHost := fun i h s => Except.ok ({ h with id := i }, s + 1),
    deleteHost := fun _ s => Except.ok (s + 1),
    getHostGroups := fun _ s => Except.ok (hostGroups0, s),
    addGroupToHost := fun _ _ s => Except.ok (s + 1),
    removeGroupFromHost := fun _ _ s => Except.ok (s + 1) }

/-- Fixture gateway whose group creation fails, for exercising the failure
paths. -/
def failGw : Gateway Nat :=
  { fixGw [] [] [] [] with
    createGroup := fun _ _ => Except.error "status: 500, body: boom" }

/-- Plan realizing the end-to-end scenario: inventory with groups a and b,
a having child b, and one host in both groups. -/
def fixPlan : Plan :=
  { id := 0, organization := 1, name := "inv", description := "", vars := [],
    groups := [fixPlanGroup 0 "a" ["b"], fixPlanGroup 0 "b" []],
    hosts := [fixPlanHost 0 "h" ["a", "b"]] }

/-- Gateway for the snapshot-freshness counterexample: listing the children
of any group reports a single group named X. -/
def gwSnap : Gateway Nat := fixGw [] [fixGroup 5 "X" []] [] []

/-- Successful create run of the scenario plan against the counterexample
gateway. -/
def snapRun : List Event × Nat × Except String Snapshot := runCreate gwSnap fixPlan 0

/-- Snapshot produced by that run. -/
def snapResult : Snapshot :=
  match snapRun with
  | (_, _, Except.ok snap) => snap
  | _ => { id := 0, organization := 0, name := "", description := none, vars := none,
           groups := [], hosts := [] }

/-- Reconciled group set for the set-reconciliation example: fresh groups
B, C and D. -/
def c1Updated : List AapGroup :=
  [fixGroup 11 "B" [], fixGroup 12 "C" [], fixGroup 13 "D" []]

/-- Current remote children for the set-reconciliation example: A, B and C. -/
def c1Current : List AapGroup :=
  [fixGroup 1 "A" [], fixGroup 11 "B" [], fixGroup 12 "C" []]

/-- Group under reconciliation, declaring children B, C and D against the
current remote children A, B and C. -/
def c1G : AapGroup := fixGroup 10 "G" ["B", "C", "D"]

/-- Gateway reporting the example current children. -/
def gwC1 : Gateway Nat := fixGw [] c1Current [] []

/-- Trace of the example child reconciliation run. -/
def c1Trace : List Event := (reconcileGroupChildren gwC1 c1Updated c1G 0).1

/-- Gateway for the entity-diff example. -/
def gwC2 : Gateway Nat := fixGw [] [] [] []

/-- Declared group carrying id 7, which is absent from the current remote
set, as after an out-of-band deletion. -/
def c2Pg : PlanGroup := fixPlanGroup 7 "a" []

/-- Run of the group create-or-update step on the out-of-band-deleted group. -/
def c2Run : List Event × Nat × Except String AapGroup :=
  createOrUpdateGroup gwC2 1 [] c2Pg 0

/-- Group recorded by that run. -/
def c2Group : AapGroup :=
  match c2Run with
  | (_, _, Except.ok g) => g
  | _ => fixGroup 0 "" []

/-- Run of the stale-group deletion phase over a current remote group whose
id is absent from the reconciled set. -/
def c2DelRun : List Event × Nat × Except String Unit :=
  deleteAbsentGroupsPhase gwC2 [fixGroup 3 "z" []] [] 0

/-- Reconciled set for the resolution-source example: parent G declaring
child A, and group A as just recreated with fresh id 11. -/
def c8Updated : List AapGroup := [fixGroup 10 "G" ["A"], fixGroup 11 "A" []]

/-- Remote current set before that pass: a stale record of A with old id 2. -/
def c8Current : List AapGroup := [fixGroup 2 "A" []]

/-- Gateway reporting no current children for any group. -/
def gwC8 : Gateway Nat := fixGw [] [] [] []

/-- Successful update run of the scenario plan against the plain fixture
gateway. -/
def c10Run : List Event × Nat × Except String Snapshot :=
  runUpdate (fixGw [] [] [] []) fixPlan 0

/-- Snapshot produced by that update run. -/
def c10Snap : Snapshot :=
  match c10Run with
  | (_, _, Except.ok snap) => snap
  | _ => { id := 0, organization := 0, name := "", description := none, vars := none,
           groups := [], hosts := [] }

theorem psb_nil : parseStringBody [] = none := by
  rw [parseStringBody.eq_def]

theorem psb_quote (rest : List Char) : parseStringBody ('"' :: rest) = some ([], rest) := by
  rw [parseStringBody.eq_def]
  dsimp only
  rw [if_pos rfl]

theorem psb_esc_nil : parseStringBody ['\\'] = none := by
  rw [parseStringBody.eq_def]
  dsimp only
  rw [if_neg (by decide), if_pos rfl]

theorem psb_u (h1 h2 h3 h4 : Char) (rest2 : List Char) (a b c2 d : Nat)
    (ha : hexVal h1 = some a) (hb : hexVal h2 = some b) (hc : hexVal h3 = some c2)
    (hd : hexVal h4 = some d) :
    parseStringBody ('\\' :: 'u' :: h1 :: h2 :: h3 :: h4 :: rest2) =
      match parseStringBody rest2 with
      | some (s, r) => some (Char.ofNat (((a * 16 + b) * 16 + c2) * 16 + d) :: s, r)
      | none => none := by
  rw [parseStringBody.eq_def]
  dsimp only
  rw [if_neg (by decide), if_pos rfl, if_pos rfl, ha, hb, hc, hd]

theorem psb_esc (e : Char) (rest1 : List Char) (c1 : Char)
    (hu : ¬ e = 'u') (he : unescapeChar e = some c1) :
    parseStringBody ('\\' :: e :: rest1) =
      match parseStringBody rest1 with
      | some (s, r) => some (c1 :: s, r)
      | none => none := by
  rw [parseStringBody.eq_def]
  dsimp only
  rw [if_neg (by decide), if_pos rfl, if_neg hu, he]

theorem psb_esc_bad (e : Char) (rest1 : List Char)
    (hu : ¬ e = 'u') (he : unescapeChar e = none) :
    parseStringBody ('\\' :: e :: rest1) = none := by
  rw [parseStringBody.eq_def]
  dsimp only
  rw [if_neg (by decide), if_pos rfl, if_neg hu, he]

theorem psb_plain (c : Char) (rest : List Char) (h1 : ¬ c = '"') (h2 : ¬ c = '\\') :
    parseStringBody (c :: rest) =
      match parseStringBody rest with
      | some (s, r) => some (c :: s, r)
      | none => none := by
  rw [parseStringBody.eq_def]
  dsimp only
  rw [if_neg h1, if_neg h2]

theorem parseStringBody_length :
    ∀ l s r, parseStringBody l = some (s, r) → r.length < l.length := by
  intro l
  induction l using parseStringBody.induct with
  | case1 => intro s r h; rw [psb_nil] at h; cases h
  | case2 rest1 =>
    intro s r h
    rw [psb_quote] at h
    cases h
    simp
  | case3 hq => intro s r h; rw [psb_esc_nil] at h; cases h
  | case4 h1 h2 h3 h4 rest2 a b c2 d hd hc hb ha s0 r0 hp hq ih =>
    intro s r h
    rw [psb_u h1 h2 h3 h4 rest2 a b c2 d ha hb hc hd, hp] at h
    cases h
    have := ih _ _ hp
    simp
    omega
  | case5 h1 h2 h3 h4 rest2 a b c2 d hd hc hb ha hrec hq ih =>
    intro s r h
    rw [psb_u h1 h2 h3 h4 rest2 a b c2 d ha hb hc hd, hrec] at h
    cases h
  | case6 h1 h2 h3 h4 rest2 hbad hq =>
    intro s r h
    rw [parseStringBody.eq_def] at h
    dsimp only at h
    rw [if_neg (by decide), if_pos rfl, if_pos rfl] at h
    cases hh1 : hexVal h1 with
    | none => rw [hh1] at h; cases h
    | some a =>
      rw [hh1] at h
      cases hh2 : hexVal h2 with
      | none => rw [hh2] at h; cases h
      | some b =>
        rw [hh2] at h
        cases hh3 : hexVal h3 with
        | none => rw [hh3] at h; cases h
        | some c2 =>
          rw [hh3] at h
          cases hh4 : hexVal h4 with
          | none => rw [hh4] at h; cases h
          | some d => exact absurd hh4 (hbad a b c2 d hh1 hh2 hh3)
  | case7 rest1 hshort hq =>
    intro s r h
    rw [parseStringBody.eq_def] at h
    dsimp only at h
    rw [if_neg (by decide), if_pos rfl, if_pos rfl] at h
    match rest1, h with
    | [], h => cases h
    | [x1], h => cases h
    | [x1, x2], h => cases h
    | [x1, x2, x3], h => cases h
    | x1 :: x2 :: x3 :: x4 :: t, h => exact absurd rfl (fun hh => hshort x1 x2 x3 x4 t hh)
  | case8 e rest1 hu c1 he s0 r0 hp hq ih =>
    intro s r h
    rw [psb_esc e rest1 c1 hu he, hp] at h
    cases h
    have := ih _ _ hp
    simp
    omega
  | case9 e rest1 hu c1 he hp hq ih =>
    intro s r h
    rw [psb_esc e rest1 c1 hu he, hp] at h
    cases h
  | case10 e rest1 hu he hq =>
    intro s r h
    rw [psb_esc_bad e rest1 hu he] at h
    cases h
  | case11 e rest1 hq hb s0 r0 hp ih =>
    intro s r h
    rw [psb_plain e rest1 hq hb, hp] at h
    cases h
    have := ih _ _ hp
    simp
    omega
  | case12 e rest1 hq hb hp ih =>
    intro s r h
    rw [psb_plain e rest1 hq hb, hp] at h
    cases h

theorem hexVal_hexDigitChar : ∀ k, k < 16 → hexVal (hexDigitChar k) = some k := by
  decide

theorem psb_escaped (cs : List Char) (rest : List Char) :
    parseStringBody ((cs.map escapeChar).flatten ++ '"' :: rest) = some (cs, rest) := by
  induction cs with
  | nil => simpa using psb_quote rest
  | cons c cs ih =>
    rw [List.map_cons, List.flatten_cons, List.append_assoc]
    by_cases h1 : c = '"'
    · subst h1
      have he : escapeChar '"' = ['\\', '"'] := by decide
      rw [he]
      rw [show ('\\' :: '"' :: ([] : List Char)) ++ ((cs.map escapeChar).flatten ++ '"' :: rest) =
        '\\' :: '"' :: ((cs.map escapeChar).flatten ++ '"' :: rest) from rfl]
      rw [psb_esc '"' _ '"' (by decide) (by decide), ih]
    · by_cases h2 : c = '\\'
      · subst h2
        have he : escapeChar '\\' = ['\\', '\\'] := by decide
        rw [he]
        rw [show ('\\' :: '\\' :: ([] : List Char)) ++ ((cs.map escapeChar).flatten ++ '"' :: rest) =
          '\\' :: '\\' :: ((cs.map escapeChar).flatten ++ '"' :: rest) from rfl]
        rw [psb_esc '\\' _ '\\' (by decide) (by decide), ih]
      · by_cases h3 : c = '\n'
        · subst h3
          have he : escapeChar '\n' = ['\\', 'n'] := by decide
          rw [he]
          rw [show ('\\' :: 'n' :: ([] : List Char)) ++ ((cs.map escapeChar).flatten ++ '"' :: rest) =
            '\\' :: 'n' :: ((cs.map escapeChar).flatten ++ '"' :: rest) from rfl]
          rw [psb_esc 'n' _ '\n' (by decide) (by decide), ih]
        · by_cases h4 : c = '\r'
          · subst h4
            have he : escapeChar '\r' = ['\\', 'r'] := by decide
            rw [he]
            rw [show ('\\' :: 'r' :: ([] : List Char)) ++ ((cs.map escapeChar).flatten ++ '"' :: rest) =
              '\\' :: 'r' :: ((cs.map escapeChar).flatten ++ '"' :: rest) from rfl]
            rw [psb_esc 'r' _ '\r' (by decide) (by decide), ih]
          · by_cases h5 : c = '\t'
            · subst h5
              have he : escapeChar '\t' = ['\\', 't'] := by decide
              rw [he]
              rw [show ('\\' :: 't' :: ([] : List Char)) ++ ((cs.map escapeChar).flatten ++ '"' :: rest) =
                '\\' :: 't' :: ((cs.map escapeChar).flatten ++ '"' :: rest) from rfl]
              rw [psb_esc 't' _ '\t' (by decide) (by decide), ih]
            · by_cases h6 : c.toNat < 32 ∨ c = '<' ∨ c = '>' ∨ c = '&'
              · have he : escapeChar c =
                    ['\\', 'u', '0', '0', hexDigitChar (c.toNat / 16), hexDigitChar (c.toNat % 16)] := by
                  simp only [escapeChar, if_neg h1, if_neg h2, if_neg h3, if_neg h4, if_neg h5, if_pos h6]
                have hlt : c.toNat < 256 := by
                  rcases h6 with h | h | h | h
                  · omega
                  · subst h; decide
                  · subst h; decide
                  · subst h; decide
                rw [he]
                rw [show ('\\' :: 'u' :: '0' :: '0' :: hexDigitChar (c.toNat / 16) ::
                    hexDigitChar (c.toNat % 16) :: ([] : List Char)) ++
                    ((cs.map escapeChar).flatten ++ '"' :: rest) =
                  '\\' :: 'u' :: '0' :: '0' :: hexDigitChar (c.toNat / 16) ::
                    hexDigitChar (c.toNat % 16) ::
                    ((cs.map escapeChar).flatten ++ '"' :: rest) from rfl]
                rw [psb_u _ _ _ _ _ 0 0 (c.toNat / 16) (c.toNat % 16) (by decide) (by decide)
                  (hexVal_hexDigitChar _ (by omega)) (hexVal_hexDigitChar _ (by omega)), ih]
                have hv : ((0 * 16 + 0) * 16 + c.toNat / 16) * 16 + c.toNat % 16 = c.toNat := by
                  omega
                rw [hv, Char.ofNat_toNat]
              · by_cases h7 : c.toNat = 8232 ∨ c.toNat = 8233
                · have he : escapeChar c = ['\\', 'u', '2', '0', '2', hexDigitChar (c.toNat % 16)] := by
                    simp only [escapeChar, if_neg h1, if_neg h2, if_neg h3, if_neg h4, if_neg h5,
                      if_neg h6, if_pos h7]
                  rw [he]
                  rw [show ('\\' :: 'u' :: '2' :: '0' :: '2' :: hexDigitChar (c.toNat % 16) ::
                      ([] : List Char)) ++ ((cs.map escapeChar).flatten ++ '"' :: rest) =
                    '\\' :: 'u' :: '2' :: '0' :: '2' :: hexDigitChar (c.toNat % 16) ::
                      ((cs.map escapeChar).flatten ++ '"' :: rest) from rfl]
                  rw [psb_u _ _ _ _ _ 2 0 2 (c.toNat % 16) (by decide) (by decide) (by decide)
                    (hexVal_hexDigitChar _ (by omega)), ih]
                  have hv : ((2 * 16 + 0) * 16 + 2) * 16 + c.toNat % 16 = c.toNat := by
                    rcases h7 with h | h <;> omega
                  rw [hv, Char.ofNat_toNat]
                · have he : escapeChar c = [c] := by
                    simp only [escapeChar, if_neg h1, if_neg h2, if_neg h3, if_neg h4, if_neg h5,
                      if_neg h6, if_neg h7]
                  rw [he]
                  rw [show (c :: ([] : List Char)) ++ ((cs.map escapeChar).flatten ++ '"' :: rest) =
                    c :: ((cs.map escapeChar).flatten ++ '"' :: rest) from rfl]
                  rw [psb_plain c _ h1 h2, ih]

theorem parseJsonString_length (l : List Char) (s : String) (r : List Char)
    (h : parseJsonString l = some (s, r)) : r.length < l.length := by
  match l with
  | [] => cases h
  | c :: rest =>
    simp only [parseJsonString] at h
    split at h
    · cases hp : parseStringBody rest with
      | none => rw [hp] at h; cases h
      | some p =>
        obtain ⟨s1, r1⟩ := p
        rw [hp] at h
        dsimp only at h
        cases h
        have := parseStringBody_length rest _ _ hp
        simp
        omega
    · cases h

theorem parseJsonString_quote (s : String) (rest : List Char) :
    parseJsonString (quoteChars s ++ rest) = some (s, rest) := by
  cases s with
  | mk cs =>
    simp only [quoteChars, parseJsonString, List.cons_append, if_pos]
    rw [List.append_assoc]
    rw [show (['"'] : List Char) ++ rest = '"' :: rest from rfl]
    rw [psb_escaped]

theorem quoteChars_length (s : String) : 2 ≤ (quoteChars s).length := by
  simp [quoteChars]

theorem pm_singleton (k v : String) (rest : List Char) :
    printMembers [(k, v)] ++ '\x7d' :: rest =
      quoteChars k ++ ':' :: (quoteChars v ++ '\x7d' :: rest) := by
  simp [printMembers, List.append_assoc]

theorem pm_cons (k v : String) (p : String × String) (ms : List (String × String))
    (rest : List Char) :
    printMembers ((k, v) :: p :: ms) ++ '\x7d' :: rest =
      quoteChars k ++ ':' :: (quoteChars v ++ ',' :: (printMembers (p :: ms) ++ '\x7d' :: rest)) := by
  simp [printMembers, List.append_assoc]

theorem parseMembersF_print (ms : List (String × String)) :
    ∀ fuel p rest, ms.length + 1 ≤ fuel →
      parseMembersF fuel (printMembers (p :: ms) ++ '\x7d' :: rest) = some (p :: ms, rest) := by
  induction ms with
  | nil =>
    intro fuel p rest hfuel
    obtain ⟨k, v⟩ := p
    match fuel, hfuel with
    | fuel + 1, _ =>
      rw [pm_singleton]
      simp only [parseMembersF]
      rw [parseJsonString_quote]
      dsimp only
      rw [if_pos rfl, parseJsonString_quote]
      dsimp only
      rw [if_neg (by decide), if_pos rfl]
  | cons p2 ms ih =>
    intro fuel p rest hfuel
    obtain ⟨k, v⟩ := p
    match fuel, hfuel with
    | fuel + 1, hfuel =>
      rw [pm_cons]
      simp only [parseMembersF]
      rw [parseJsonString_quote]
      dsimp only
      rw [if_pos rfl, parseJsonString_quote]
      dsimp only
      rw [if_pos rfl, ih fuel p2 rest (by simp at hfuel; omega)]

theorem printMembers_head (p : String × String) (ms : List (String × String)) :
    ∃ t, printMembers (p :: ms) = '"' :: t := by
  obtain ⟨k, v⟩ := p
  cases ms with
  | nil =>
    exact ⟨(k.data.map escapeChar).flatten ++ ['"'] ++ ':' :: quoteChars v, by
      simp [printMembers, quoteChars]⟩
  | cons p2 ms =>
    exact ⟨(k.data.map escapeChar).flatten ++ ['"'] ++ ':' :: (quoteChars v ++
      ',' :: printMembers (p2 :: ms)), by simp [printMembers, quoteChars]⟩

theorem printMembers_len (ms : List (String × String)) :
    ∀ p, ms.length + 1 ≤ (printMembers (p :: ms)).length := by
  induction ms with
  | nil =>
    intro p
    obtain ⟨k, v⟩ := p
    simp only [printMembers, List.length_append, List.length_cons, List.length_nil]
    omega
  | cons p2 ms ih =>
    intro p
    obtain ⟨k, v⟩ := p
    have h2 := ih p2
    have hq := quoteChars_length k
    have hv := quoteChars_length v
    simp only [printMembers, List.length_append, List.length_cons]
    simp only [List.length_cons] at h2
    omega

theorem parseObjectBody_print (m : List (String × String)) (rest : List Char) :
    parseObjectBody (printMembers m ++ '\x7d' :: rest) = some (m, rest) := by
  cases m with
  | nil => simp [printMembers, parseObjectBody]
  | cons p ms =>
    obtain ⟨t, ht⟩ := printMembers_head p ms
    rw [parseObjectBody.eq_def]
    rw [show printMembers (p :: ms) ++ '\x7d' :: rest = '"' :: (t ++ '\x7d' :: rest) from by
      rw [ht]; simp]
    dsimp only
    rw [if_neg (by decide)]
    rw [show ('"' : Char) :: (t ++ '\x7d' :: rest) = printMembers (p :: ms) ++ '\x7d' :: rest from by
      rw [ht]; simp]
    apply parseMembersF_print
    have h1 := printMembers_len ms p
    simp only [List.length_append, List.length_cons]
    omega

theorem skipWs_open (t : List Char) : skipWs ('\x7b' :: t) = '\x7b' :: t := by
  simp only [skipWs]
  rw [if_neg (by decide)]

theorem assocPut_notMem (m : List (String × String)) (k v : String)
    (h : k ∉ m.map Prod.fst) : assocPut m k v = m ++ [(k, v)] := by
  induction m with
  | nil => rfl
  | cons p rest ih =>
    obtain ⟨k1, v1⟩ := p
    simp only [List.map_cons, List.mem_cons, not_or] at h
    have hne : ¬ k1 = k := fun hh => h.1 hh.symm
    simp only [assocPut]
    rw [if_neg hne, ih h.2]
    simp

theorem buildGoMap_go (l : List (String × String)) :
    ∀ acc, (∀ kv ∈ l, kv.1 ∉ acc.map Prod.fst) → (l.map Prod.fst).Nodup →
      l.foldl (fun acc kv => assocPut acc kv.1 kv.2) acc = acc ++ l := by
  induction l with
  | nil => intro acc _ _; simp
  | cons p rest ih =>
    intro acc hdisj hnd
    obtain ⟨k, v⟩ := p
    simp only [List.foldl_cons]
    rw [assocPut_notMem acc k v (hdisj (k, v) (by simp))]
    simp only [List.map_cons, List.nodup_cons] at hnd
    rw [ih (acc ++ [(k, v)]) ?_ hnd.2]
    · simp
    · intro kv hkv
      simp only [List.map_append, List.mem_append]
      push_neg
      refine ⟨hdisj kv (by simp [hkv]), ?_⟩
      simp only [List.map_cons, List.map_nil, List.mem_singleton]
      intro hh
      have hmem : kv.1 ∈ List.map Prod.fst rest := List.mem_map_of_mem Prod.fst hkv
      rw [hh] at hmem
      exact hnd.1 hmem

theorem buildGoMap_nodup (l : List (String × String)) (h : (l.map Prod.fst).Nodup) :
    buildGoMap l = l := by
  have := buildGoMap_go l [] (by simp) h
  simpa [buildGoMap] using this

theorem strictKeyLt_string_lt (p q : String × String) (h : strictKeyLt p q) : p.1 < q.1 := by
  rw [String.lt_iff_toList_lt]
  exact h

theorem canonical_sort_eq (m : List (String × String)) (hs : List.Pairwise strictKeyLt m) :
    m.insertionSort keyOrder = m := by
  apply List.Sorted.insertionSort_eq
  exact hs.imp (fun h => le_of_lt (strictKeyLt_string_lt _ _ h))

theorem canonical_keys_nodup (m : List (String × String)) (hs : List.Pairwise strictKeyLt m) :
    (m.map Prod.fst).Nodup := by
  exact List.pairwise_map.mpr (hs.imp (fun h => ne_of_lt (strictKeyLt_string_lt _ _ h)))

theorem goUnmarshal_goMarshal (m : List (String × String)) (hs : List.Pairwise strictKeyLt m) :
    goUnmarshalStringMap (goMarshalStringMap m) = some m := by
  have hsort : m.insertionSort keyOrder = m := canonical_sort_eq m hs
  rw [goMarshalStringMap, hsort]
  rw [goUnmarshalStringMap]
  rw [show (String.mk ('\x7b' :: printMembers m ++ ['\x7d'])).data =
    '\x7b' :: (printMembers m ++ ['\x7d']) from by simp]
  rw [skipWs_open]
  dsimp only
  rw [if_pos rfl]
  rw [show printMembers m ++ ['\x7d'] = printMembers m ++ '\x7d' :: [] from rfl]
  rw [parseObjectBody_print]
  dsimp only
  rw [if_pos (show skipWs ([] : List Char) = [] from rfl)]
  rw [buildGoMap_nodup m (canonical_keys_nodup m hs)]

theorem EngM.bind_ok_inv {σ α β : Type} (x : EngM σ α) (f : α → EngM σ β) (s : σ)
    (t : List Event) (s2 : σ) (b : β)
    (h : EngM.bind x f s = (t, s2, Except.ok b)) :
    ∃ t1 s1 a t2, x s = (t1, s1, Except.ok a) ∧ f a s1 = (t2, s2, Except.ok b) ∧
      t = t1 ++ t2 := by
  unfold EngM.bind at h
  cases hx : x s with
  | mk t1 p =>
    obtain ⟨s1, r⟩ := p
    rw [hx] at h
    cases r with
    | error e => simp at h
    | ok a =>
      dsimp only at h
      cases hf : f a s1 with
      | mk t2 q =>
        obtain ⟨s2', r2⟩ := q
        rw [hf] at h
        dsimp only at h
        cases r2 with
        | error e => simp at h
        | ok b2 =>
          simp only [Prod.mk.injEq, Except.ok.injEq] at h
          obtain ⟨h1, h2, h3⟩ := h
          subst h2
          subst h3
          exact ⟨t1, s1, a, t2, rfl, hf, h1.symm⟩

theorem EngM.bind_err_inv {σ α β : Type} (x : EngM σ α) (f : α → EngM σ β) (s : σ)
    (t : List Event) (s2 : σ) (e : String)
    (h : EngM.bind x f s = (t, s2, Except.error e)) :
    (x s = (t, s2, Except.error e)) ∨
    (∃ t1 s1 a t2, x s = (t1, s1, Except.ok a) ∧ f a s1 = (t2, s2, Except.error e) ∧
      t = t1 ++ t2) := by
  unfold EngM.bind at h
  cases hx : x s with
  | mk t1 p =>
    obtain ⟨s1, r⟩ := p
    rw [hx] at h
    cases r with
    | error e1 =>
      dsimp only at h
      simp only [Prod.mk.injEq, Except.error.injEq] at h
      obtain ⟨h1, h2, h3⟩ := h
      subst h1
      subst h2
      subst h3
      exact Or.inl rfl
    | ok a =>
      dsimp only at h
      cases hf : f a s1 with
      | mk t2 q =>
        obtain ⟨s2', r2⟩ := q
        rw [hf] at h
        dsimp only at h
        cases r2 with
        | error e2 =>
          simp only [Prod.mk.injEq, Except.error.injEq] at h
          obtain ⟨h1, h2, h3⟩ := h
          subst h2
          subst h3
          exact Or.inr ⟨t1, s1, a, t2, rfl, hf, h1.symm⟩
        | ok b2 => simp at h

theorem EngM.bind_events {σ α β : Type} (x : EngM σ α) (f : α → EngM σ β) (s : σ) :
    (EngM.bind x f s).1 = (x s).1 ∨
    (∃ t1 s1 a, x s = (t1, s1, Except.ok a) ∧
      (EngM.bind x f s).1 = t1 ++ (f a s1).1) := by
  unfold EngM.bind
  cases hx : x s with
  | mk t1 p =>
    obtain ⟨s1, r⟩ := p
    cases r with
    | error e => exact Or.inl rfl
    | ok a =>
      right
      refine ⟨t1, s1, a, rfl, ?_⟩
      show (match f a s1 with
        | (t2, s2, r) => (t1 ++ t2, s2, r)).1 = t1 ++ (f a s1).1
      cases hf : f a s1 with
      | mk t2 q =>
        obtain ⟨s2, r2⟩ := q
        rfl

theorem GroupIdFromName_ok_mem (name : String) (groups : List AapGroup) (i : Int)
    (h : GroupIdFromName name groups = Except.ok i) :
    ∃ g ∈ groups, g.name = name ∧ g.id = i := by
  induction groups with
  | nil => cases h
  | cons g rest ih =>
    rw [GroupIdFromName] at h
    by_cases hn : g.name = name
    · rw [if_pos hn] at h
      cases h
      exact ⟨g, List.mem_cons_self g rest, hn, rfl⟩
    · rw [if_neg hn] at h
      obtain ⟨g2, hg2, hname, hid⟩ := ih h
      exact ⟨g2, List.mem_cons_of_mem g hg2, hname, hid⟩

theorem engForM_calls (f : α → EngM σ Unit) (spec : α → List Call)
    (hstep : ∀ a s t s1, f a s = (t, s1, Except.ok ()) → t.map Event.call = spec a) :
    ∀ l s t s1, engForM f l s = (t, s1, Except.ok ()) →
      t.map Event.call = (l.map spec).flatten := by
  intro l
  induction l with
  | nil =>
    intro s t s1 h
    simp only [engForM, EngM.pure, Prod.mk.injEq] at h
    rw [← h.1]
    simp
  | cons a as ih =>
    intro s t s1 h
    rw [engForM] at h
    obtain ⟨t1, sm, b, t2, hx, hf, ht⟩ := EngM.bind_ok_inv _ _ _ _ _ _ h
    subst ht
    simp only [List.map_append, List.map_cons, List.flatten_cons]
    rw [hstep a s t1 sm hx, ih sm t2 s1 hf]

theorem engMapM_calls (f : α → EngM σ β) (spec : α → List Call)
    (hstep : ∀ a s t s1 b, f a s = (t, s1, Except.ok b) → t.map Event.call = spec a) :
    ∀ l s t s1 bs, engMapM f l s = (t, s1, Except.ok bs) →
      t.map Event.call = (l.map spec).flatten := by
  intro l
  induction l with
  | nil =>
    intro s t s1 bs h
    simp only [engMapM, EngM.pure, Prod.mk.injEq] at h
    rw [← h.1]
    simp
  | cons a as ih =>
    intro s t s1 bs h
    rw [engMapM] at h
    obtain ⟨t1, sm, b, t2, hx, hf, ht⟩ := EngM.bind_ok_inv _ _ _ _ _ _ h
    obtain ⟨t2a, sm2, bs2, t2b, hy, hg, ht2⟩ := EngM.bind_ok_inv _ _ _ _ _ _ hf
    have hpure : t2b = [] := by
      simp only [EngM.pure, Prod.mk.injEq] at hg
      rw [← hg.1]
    subst ht
    subst ht2
    subst hpure
    simp only [List.map_append, List.map_cons, List.flatten_cons, List.map_nil,
      List.append_nil]
    rw [hstep a s t1 sm b hx, ih sm t2a sm2 bs2 hy]

theorem engMapM_ok_forall₂ (f : α → EngM σ β) (P : α → β → Prop)
    (hstep : ∀ a s t s1 b, f a s = (t, s1, Except.ok b) → P a b) :
    ∀ l s t s1 bs, engMapM f l s = (t, s1, Except.ok bs) → List.Forall₂ P l bs := by
  intro l
  induction l with
  | nil =>
    intro s t s1 bs h
    simp only [engMapM, EngM.pure, Prod.mk.injEq, Except.ok.injEq] at h
    rw [← h.2.2]
    exact List.Forall₂.nil
  | cons a as ih =>
    intro s t s1 bs h
    rw [engMapM] at h
    obtain ⟨t1, sm, b, t2, hx, hf, ht⟩ := EngM.bind_ok_inv _ _ _ _ _ _ h
    obtain ⟨t2a, sm2, bs2, t2b, hy, hg, ht2⟩ := EngM.bind_ok_inv _ _ _ _ _ _ hf
    simp only [EngM.pure, Prod.mk.injEq, Except.ok.injEq] at hg
    rw [← hg.2.2]
    exact List.Forall₂.cons (hstep a s t1 sm b hx) (ih sm t2a sm2 bs2 hy)

theorem engMapM_ok_elem (f : α → EngM σ β) (Q : β → List Event → Prop)
    (hmonoL : ∀ b t t2, Q b t → Q b (t ++ t2))
    (hmonoR : ∀ b t t2, Q b t → Q b (t2 ++ t))
    (hstep : ∀ a s t s1 b, f a s = (t, s1, Except.ok b) → Q b t) :
    ∀ l s t s1 bs, engMapM f l s = (t, s1, Except.ok bs) → ∀ b ∈ bs, Q b t := by
  intro l
  induction l with
  | nil =>
    intro s t s1 bs h b hb
    simp only [engMapM, EngM.pure, Prod.mk.injEq, Except.ok.injEq] at h
    rw [← h.2.2] at hb
    cases hb
  | cons a as ih =>
    intro s t s1 bs h b hb
    rw [engMapM] at h
    obtain ⟨t1, sm, b1, t2, hx, hf, ht⟩ := EngM.bind_ok_inv _ _ _ _ _ _ h
    obtain ⟨t2a, sm2, bs2, t2b, hy, hg, ht2⟩ := EngM.bind_ok_inv _ _ _ _ _ _ hf
    simp only [EngM.pure, Prod.mk.injEq, Except.ok.injEq] at hg
    subst ht
    have ht2b : t2b = [] := by rw [← hg.1]
    subst ht2b
    subst ht2
    rw [← hg.2.2] at hb
    simp only [List.append_nil]
    rcases List.mem_cons.mp hb with hbe | hbt
    · subst hbe
      exact hmonoL _ t1 t2a (hstep a s t1 sm _ hx)
    · exact hmonoR b t2a t1 (ih sm t2a sm2 bs2 hy b hbt)

theorem flatten_if_map (l : List α) (p : α → Bool) (c : α → Call) :
    (l.map (fun a => if p a then [] else [c a])).flatten =
      (l.filter (fun a => !p a)).map c := by
  induction l with
  | nil => simp
  | cons a as ih =>
    by_cases hp : p a
    · simp [hp, ih]
    · simp only [Bool.not_eq_true] at hp
      simp [hp, ih]

theorem gwCall_ok_inv {σ ρ : Type} (call : Call) (toOut : ρ → Outcome) (ctx : String)
    (act : σ → Except String (ρ × σ)) (s : σ) (t : List Event) (s1 : σ) (r : ρ)
    (h : gwCall call toOut ctx act s = (t, s1, Except.ok r)) :
    t = [Event.mk call (toOut r)] ∧ act s = Except.ok (r, s1) := by
  unfold gwCall at h
  cases hact : act s with
  | error e => rw [hact] at h; simp at h
  | ok p =>
    obtain ⟨r2, s2⟩ := p
    rw [hact] at h
    simp only [Prod.mk.injEq, Except.ok.injEq] at h
    obtain ⟨h1, h2, h3⟩ := h
    subst h2
    subst h3
    exact ⟨h1.symm, rfl⟩

theorem gwCallUnit_ok_inv {σ : Type} (call : Call) (ctx : String)
    (act : σ → Except String σ) (s : σ) (t : List Event) (s1 : σ)
    (h : gwCallUnit call ctx act s = (t, s1, Except.ok ())) :
    t = [Event.mk call Outcome.okResp] ∧ act s = Except.ok s1 := by
  unfold gwCallUnit at h
  cases hact : act s with
  | error e => rw [hact] at h; simp at h
  | ok s2 =>
    rw [hact] at h
    simp only [Prod.mk.injEq] at h
    obtain ⟨h1, h2, _⟩ := h
    subst h2
    exact ⟨h1.symm, rfl⟩

theorem pure_ok_inv {σ α : Type} (a : α) (s : σ) (t : List Event) (s1 : σ) (b : α)
    (h : EngM.pure a s = (t, s1, Except.ok b)) : t = [] ∧ s1 = s ∧ b = a := by
  simp only [EngM.pure, Prod.mk.injEq, Except.ok.injEq] at h
  exact ⟨h.1.symm, h.2.1.symm, h.2.2.symm⟩

theorem abort_not_ok {σ α : Type} (m : String) (s : σ) (t : List Event) (s1 : σ) (b : α)
    (h : EngM.abort m s = (t, s1, Except.ok b)) : False := by
  simp [EngM.abort] at h

theorem addChildStep_calls (gw : Gateway σ) (ug : List AapGroup) (g : AapGroup)
    (cc : List AapGroup) (n : String) (s : σ) (t : List Event) (s1 : σ)
    (h : addChildStep gw ug g cc n s = (t, s1, Except.ok ())) :
    t.map Event.call =
      if cc.any (fun c => c.name == n) then []
      else [Call.addChildToGroup g.id (resolvedId n ug)] := by
  unfold addChildStep at h
  by_cases hmem : cc.any (fun c => c.name == n)
  · rw [if_pos hmem] at h
    rw [if_pos hmem, (pure_ok_inv _ _ _ _ _ h).1]
    rfl
  · rw [if_neg hmem] at h
    rw [if_neg hmem]
    cases hres : GroupIdFromName n ug with
    | error e => rw [hres] at h; exact absurd h (by simp [EngM.abort])
    | ok i =>
      rw [hres] at h
      rw [(gwCallUnit_ok_inv _ _ _ _ _ _ h).1]
      simp [resolvedId, hres]

theorem removeChildStep_calls (gw : Gateway σ) (g : AapGroup) (child : AapGroup)
    (s : σ) (t : List Event) (s1 : σ)
    (h : removeChildStep gw g child s = (t, s1, Except.ok ())) :
    t.map Event.call =
      if g.children.contains child.name then []
      else [Call.removeChildFromGroup g.id child.id] := by
  unfold removeChildStep at h
  by_cases hmem : g.children.contains child.name
  · rw [if_pos hmem] at h
    rw [if_pos hmem, (pure_ok_inv _ _ _ _ _ h).1]
    rfl
  · rw [if_neg hmem] at h
    rw [if_neg hmem, (gwCallUnit_ok_inv _ _ _ _ _ _ h).1]
    rfl

theorem addHostGroupStep_calls (gw : Gateway σ) (ug : List AapGroup) (h0 : AapHost)
    (chg : List AapGroup) (n : String) (s : σ) (t : List Event) (s1 : σ)
    (h : addHostGroupStep gw ug h0 chg n s = (t, s1, Except.ok ())) :
    t.map Event.call =
      if chg.any (fun g => g.name == n) then []
      else [Call.addGroupToHost h0.id (resolvedId n ug)] := by
  unfold addHostGroupStep at h
  by_cases hmem : chg.any (fun g => g.name == n)
  · rw [if_pos hmem] at h
    rw [if_pos hmem, (pure_ok_inv _ _ _ _ _ h).1]
    rfl
  · rw [if_neg hmem] at h
    rw [if_neg hmem]
    cases hres : GroupIdFromName n ug with
    | error e => rw [hres] at h; exact absurd h (by simp [EngM.abort])
    | ok i =>
      rw [hres] at h
      rw [(gwCallUnit_ok_inv _ _ _ _ _ _ h).1]
      simp [resolvedId, hres]

theorem removeHostGroupStep_calls (gw : Gateway σ) (h0 : AapHost) (hostGroup : AapGroup)
    (s : σ) (t : List Event) (s1 : σ)
    (h : removeHostGroupStep gw h0 hostGroup s = (t, s1, Except.ok ())) :
    t.map Event.call =
      if h0.groups.contains hostGroup.name then []
      else [Call.removeGroupFromHost h0.id hostGroup.id] := by
  unfold removeHostGroupStep at h
  by_cases hmem : h0.groups.contains hostGroup.name
  · rw [if_pos hmem] at h
    rw [if_pos hmem, (pure_ok_inv _ _ _ _ _ h).1]
    rfl
  · rw [if_neg hmem] at h
    rw [if_neg hmem, (gwCallUnit_ok_inv _ _ _ _ _ _ h).1]
    rfl

theorem deleteGroupStep_calls (gw : Gateway σ) (us : List AapGroup) (cg : AapGroup)
    (s : σ) (t : List Event) (s1 : σ)
    (h : deleteGroupStep gw us cg s = (t, s1, Except.ok ())) :
    t.map Event.call =
      if us.any (fun g => g.id == cg.id) then [] else [Call.deleteGroup cg.id] := by
  unfold deleteGroupStep at h
  by_cases hmem : us.any (fun g => g.id == cg.id)
  · rw [if_pos hmem] at h
    rw [if_pos hmem, (pure_ok_inv _ _ _ _ _ h).1]
    rfl
  · rw [if_neg hmem] at h
    rw [if_neg hmem, (gwCallUnit_ok_inv _ _ _ _ _ _ h).1]
    rfl

theorem deleteHostStep_calls (gw : Gateway σ) (us : List AapHost) (ch : AapHost)
    (s : σ) (t : List Event) (s1 : σ)
    (h : deleteHostStep gw us ch s = (t, s1, Except.ok ())) :
    t.map Event.call =
      if us.any (fun h2 => h2.id == ch.id) then [] else [Call.deleteHost ch.id] := by
  unfold deleteHostStep at h
  by_cases hmem : us.any (fun h2 => h2.id == ch.id)
  · rw [if_pos hmem] at h
    rw [if_pos hmem, (pure_ok_inv _ _ _ _ _ h).1]
    rfl
  · rw [if_neg hmem] at h
    rw [if_neg hmem, (gwCallUnit_ok_inv _ _ _ _ _ _ h).1]
    rfl

theorem reconcileGroupChildren_calls (gw : Gateway σ) (ug : List AapGroup) (g : AapGroup)
    (s : σ) (t : List Event) (s1 : σ) (cc : List AapGroup) (s2 : σ)
    (hget : gw.getGroupChildren g.id s = Except.ok (cc, s2))
    (h : reconcileGroupChildren gw ug g s = (t, s1, Except.ok ())) :
    t.map Event.call =
      Call.getGroupChildren g.id ::
      ((g.children.filter (fun n => !cc.any (fun c => c.name == n))).map
        (fun n => Call.addChildToGroup g.id (resolvedId n ug)) ++
       (cc.filter (fun c => !g.children.contains c.name)).map
        (fun c => Call.removeChildFromGroup g.id c.id)) := by
  unfold reconcileGroupChildren at h
  obtain ⟨t1, sm, r, t2, hx, hf, ht⟩ := EngM.bind_ok_inv _ _ _ _ _ _ h
  obtain ⟨ht1, hact⟩ := gwCall_ok_inv _ _ _ _ _ _ _ _ hx
  rw [hget] at hact
  have hr : cc = r := by
    simp only [Except.ok.injEq, Prod.mk.injEq] at hact
    exact hact.1
  subst hr
  obtain ⟨t2a, sm2, u, t2b, hy, hg, ht2⟩ := EngM.bind_ok_inv _ _ _ _ _ _ hf
  subst ht
  subst ht2
  subst ht1
  simp only [List.map_append, List.map_cons, List.map_nil, List.cons_append, List.nil_append]
  have hadds := engForM_calls (addChildStep gw ug g cc)
    (fun n => if cc.any (fun c => c.name == n) then []
      else [Call.addChildToGroup g.id (resolvedId n ug)])
    (fun a s t s1 hh => addChildStep_calls gw ug g cc a s t s1 hh)
    g.children sm t2a sm2 hy
  have hrems := engForM_calls (removeChildStep gw g)
    (fun c => if g.children.contains c.name then []
      else [Call.removeChildFromGroup g.id c.id])
    (fun a s t s1 hh => removeChildStep_calls gw g a s t s1 hh)
    cc sm2 t2b s1 hg
  rw [hadds, hrems, flatten_if_map, flatten_if_map]

theorem reconcileHostGroups_calls (gw : Gateway σ) (ug : List AapGroup) (h0 : AapHost)
    (s : σ) (t : List Event) (s1 : σ) (chg : List AapGroup) (s2 : σ)
    (hget : gw.getHostGroups h0.id s = Except.ok (chg, s2))
    (h : reconcileHostGroups gw ug h0 s = (t, s1, Except.ok ())) :
    t.map Event.call =
      Call.getHostGroups h0.id ::
      ((h0.groups.filter (fun n => !chg.any (fun g => g.name == n))).map
        (fun n => Call.addGroupToHost h0.id (resolvedId n ug)) ++
       (chg.filter (fun g => !h0.groups.contains g.name)).map
        (fun g => Call.removeGroupFromHost h0.id g.id)) := by
  unfold reconcileHostGroups at h
  obtain ⟨t1, sm, r, t2, hx, hf, ht⟩ := EngM.bind_ok_inv _ _ _ _ _ _ h
  obtain ⟨ht1, hact⟩ := gwCall_ok_inv _ _ _ _ _ _ _ _ hx
  rw [hget] at hact
  have hr : chg = r := by
    simp only [Except.ok.injEq, Prod.mk.injEq] at hact
    exact hact.1
  subst hr
  obtain ⟨t2a, sm2, u, t2b, hy, hg, ht2⟩ := EngM.bind_ok_inv _ _ _ _ _ _ hf
  subst ht
  subst ht2
  subst ht1
  simp only [List.map_append, List.map_cons, List.map_nil, List.cons_append, List.nil_append]
  have hadds := engForM_calls (addHostGroupStep gw ug h0 chg)
    (fun n => if chg.any (fun g => g.name == n) then []
      else [Call.addGroupToHost h0.id (resolvedId n ug)])
    (fun a s t s1 hh => addHostGroupStep_calls gw ug h0 chg a s t s1 hh)
    h0.groups sm t2a sm2 hy
  have hrems := engForM_calls (removeHostGroupStep gw h0)
    (fun g => if h0.groups.contains g.name then []
      else [Call.removeGroupFromHost h0.id g.id])
    (fun a s t s1 hh => removeHostGroupStep_calls gw h0 a s t s1 hh)
    chg sm2 t2b s1 hg
  rw [hadds, hrems, flatten_if_map, flatten_if_map]

theorem createOrUpdateGroup_calls (gw : Gateway σ) (invId : Int)
    (current : List AapGroup) (pg : PlanGroup) (s : σ) (t : List Event) (s1 : σ)
    (b : AapGroup) (h : createOrUpdateGroup gw invId current pg s = (t, s1, Except.ok b)) :
    t.map Event.call =
      [if current.any (fun cg => cg.id == pg.id) then
        Call.updateGroup pg.id (groupRequest invId pg)
      else Call.createGroup (groupRequest invId pg)] ∧
    b.children = pg.children ∧ b.name = pg.name := by
  unfold createOrUpdateGroup at h
  obtain ⟨t1, sm, u, t2, hx, hf, ht⟩ := EngM.bind_ok_inv _ _ _ _ _ _ h
  obtain ⟨ht2, hsm, hb⟩ := pure_ok_inv _ _ _ _ _ hf
  subst ht
  subst ht2
  subst hb
  by_cases hc : current.any (fun cg => cg.id == pg.id)
  · rw [if_pos hc] at hx
    rw [if_pos hc]
    obtain ⟨ht1, _⟩ := gwCall_ok_inv _ _ _ _ _ _ _ _ hx
    subst ht1
    exact ⟨rfl, rfl, rfl⟩
  · rw [if_neg hc] at hx
    rw [if_neg hc]
    obtain ⟨ht1, _⟩ := gwCall_ok_inv _ _ _ _ _ _ _ _ hx
    subst ht1
    exact ⟨rfl, rfl, rfl⟩

theorem createOrUpdateHost_calls (gw : Gateway σ) (invId : Int)
    (current : List AapHost) (ph : PlanHost) (s : σ) (t : List Event) (s1 : σ)
    (b : AapHost) (h : createOrUpdateHost gw invId current ph s = (t, s1, Except.ok b)) :
    t.map Event.call =
      [if current.any (fun ch => ch.id == ph.id) then
        Call.updateHost ph.id (hostRequest invId ph)
      else Call.createHost (hostRequest invId ph)] ∧
    b.groups = ph.groups ∧ b.name = ph.name := by
  unfold createOrUpdateHost at h
  obtain ⟨t1, sm, u, t2, hx, hf, ht⟩ := EngM.bind_ok_inv _ _ _ _ _ _ h
  obtain ⟨ht2, hsm, hb⟩ := pure_ok_inv _ _ _ _ _ hf
  subst ht
  subst ht2
  subst hb
  by_cases hc : current.any (fun ch => ch.id == ph.id)
  · rw [if_pos hc] at hx
    rw [if_pos hc]
    obtain ⟨ht1, _⟩ := gwCall_ok_inv _ _ _ _ _ _ _ _ hx
    subst ht1
    exact ⟨rfl, rfl, rfl⟩
  · rw [if_neg hc] at hx
    rw [if_neg hc]
    obtain ⟨ht1, _⟩ := gwCall_ok_inv _ _ _ _ _ _ _ _ hx
    subst ht1
    exact ⟨rfl, rfl, rfl⟩

theorem deleteAbsentGroupsPhase_calls (gw : Gateway σ) (current us : List AapGroup)
    (s : σ) (t : List Event) (s1 : σ)
    (h : deleteAbsentGroupsPhase gw current us s = (t, s1, Except.ok ())) :
    t.map Event.call =
      (current.filter (fun cg => !us.any (fun g => g.id == cg.id))).map
        (fun cg => Call.deleteGroup cg.id) := by
  unfold deleteAbsentGroupsPhase at h
  have := engForM_calls (deleteGroupStep gw us)
    (fun cg => if us.any (fun g => g.id == cg.id) then [] else [Call.deleteGroup cg.id])
    (fun a s t s1 hh => deleteGroupStep_calls gw us a s t s1 hh)
    current s t s1 h
  rw [this, flatten_if_map]

theorem deleteAbsentHostsPhase_calls (gw : Gateway σ) (current us : List AapHost)
    (s : σ) (t : List Event) (s1 : σ)
    (h : deleteAbsentHostsPhase gw current us s = (t, s1, Except.ok ())) :
    t.map Event.call =
      (current.filter (fun ch => !us.any (fun h2 => h2.id == ch.id))).map
        (fun ch => Call.deleteHost ch.id) := by
  unfold deleteAbsentHostsPhase at h
  have := engForM_calls (deleteHostStep gw us)
    (fun ch => if us.any (fun h2 => h2.id == ch.id) then [] else [Call.deleteHost ch.id])
    (fun a s t s1 hh => deleteHostStep_calls gw us a s t s1 hh)
    current s t s1 h
  rw [this, flatten_if_map]

theorem createOneGroup_ok (gw : Gateway σ) (invId : Int) (pg : PlanGroup) (s : σ)
    (t : List Event) (s1 : σ) (b : AapGroup)
    (h : createOneGroup gw invId pg s = (t, s1, Except.ok b)) :
    (∃ resp, t = [Event.mk (Call.createGroup (groupRequest invId pg))
        (Outcome.groupResp resp)] ∧ b.id = resp.id) ∧
    b.children = pg.children ∧ b.name = pg.name := by
  unfold createOneGroup at h
  obtain ⟨t1, sm, u, t2, hx, hf, ht⟩ := EngM.bind_ok_inv _ _ _ _ _ _ h
  obtain ⟨ht2, hsm, hb⟩ := pure_ok_inv _ _ _ _ _ hf
  subst ht
  subst ht2
  subst hb
  obtain ⟨ht1, _⟩ := gwCall_ok_inv _ _ _ _ _ _ _ _ hx
  subst ht1
  exact ⟨⟨u, by simp, rfl⟩, rfl, rfl⟩

theorem createOneHost_ok (gw : Gateway σ) (invId : Int) (ph : PlanHost) (s : σ)
    (t : List Event) (s1 : σ) (b : AapHost)
    (h : createOneHost gw invId ph s = (t, s1, Except.ok b)) :
    (∃ resp, t = [Event.mk (Call.createHost (hostRequest invId ph))
        (Outcome.hostResp resp)] ∧ b.id = resp.id) ∧
    b.groups = ph.groups ∧ b.name = ph.name := by
  unfold createOneHost at h
  obtain ⟨t1, sm, u, t2, hx, hf, ht⟩ := EngM.bind_ok_inv _ _ _ _ _ _ h
  obtain ⟨ht2, hsm, hb⟩ := pure_ok_inv _ _ _ _ _ hf
  subst ht
  subst ht2
  subst hb
  obtain ⟨ht1, _⟩ := gwCall_ok_inv _ _ _ _ _ _ _ _ hx
  subst ht1
  exact ⟨⟨u, by simp, rfl⟩, rfl, rfl⟩

theorem EngM.bind_mem_events {σ α β : Type} (x : EngM σ α) (f : α → EngM σ β) (s : σ)
    (ev : Event) (h : ev ∈ (EngM.bind x f s).1) :
    ev ∈ (x s).1 ∨ ∃ t1 s1 a, x s = (t1, s1, Except.ok a) ∧ ev ∈ (f a s1).1 := by
  rcases EngM.bind_events x f s with he | ⟨t1, s1, a, hx, he⟩
  · rw [he] at h
    exact Or.inl h
  · rw [he] at h
    rcases List.mem_append.mp h with h1 | h2
    · rw [hx]
      exact Or.inl h1
    · exact Or.inr ⟨t1, s1, a, hx, h2⟩

theorem gwCall_mem_events {σ ρ : Type} (call : Call) (toOut : ρ → Outcome) (ctx : String)
    (act : σ → Except String (ρ × σ)) (s : σ) (ev : Event)
    (h : ev ∈ (gwCall call toOut ctx act s).1) : ev.call = call := by
  unfold gwCall at h
  cases hact : act s with
  | error e =>
    rw [hact] at h
    simp only [List.mem_singleton] at h
    rw [h]
  | ok p =>
    obtain ⟨r, s2⟩ := p
    rw [hact] at h
    simp only [List.mem_singleton] at h
    rw [h]

theorem gwCallUnit_mem_events {σ : Type} (call : Call) (ctx : String)
    (act : σ → Except String σ) (s : σ) (ev : Event)
    (h : ev ∈ (gwCallUnit call ctx act s).1) : ev.call = call := by
  unfold gwCallUnit at h
  cases hact : act s with
  | error e =>
    rw [hact] at h
    simp only [List.mem_singleton] at h
    rw [h]
  | ok s2 =>
    rw [hact] at h
    simp only [List.mem_singleton] at h
    rw [h]

theorem pure_mem_events {σ α : Type} (a : α) (s : σ) (ev : Event)
    (h : ev ∈ (EngM.pure a s).1) : False := by
  simp [EngM.pure] at h

theorem abort_mem_events {σ α : Type} (m : String) (s : σ) (ev : Event)
    (h : ev ∈ ((EngM.abort m : EngM σ α) s).1) : False := by
  simp [EngM.abort] at h

theorem engOfExcept_mem_events {σ α : Type} (x : Except String α) (s : σ) (ev : Event)
    (h : ev ∈ ((engOfExcept x : EngM σ α) s).1) : False := by
  cases x with
  | error e => exact abort_mem_events e s ev h
  | ok a => exact pure_mem_events a s ev h

theorem engMapM_events_all {σ α β : Type} (f : α → EngM σ β) (C : Event → Prop)
    (hstep : ∀ a s ev, ev ∈ (f a s).1 → C ev) :
    ∀ l s ev, ev ∈ (engMapM f l s).1 → C ev := by
  intro l
  induction l with
  | nil => intro s ev h; exact absurd h (by simp [engMapM, EngM.pure])
  | cons a as ih =>
    intro s ev h
    rw [engMapM] at h
    rcases EngM.bind_mem_events _ _ _ _ h with h1 | ⟨t1, s1, b, hx, h2⟩
    · exact hstep a s ev h1
    · rcases EngM.bind_mem_events _ _ _ _ h2 with h3 | ⟨t2, s2, bs, hy, h4⟩
      · exact ih s1 ev h3
      · exact absurd h4 (pure_mem_events _ _ _)

theorem engForM_events_all {σ α : Type} (f : α → EngM σ Unit) (C : Event → Prop)
    (hstep : ∀ a s ev, ev ∈ (f a s).1 → C ev) :
    ∀ l s ev, ev ∈ (engForM f l s).1 → C ev := by
  intro l
  induction l with
  | nil => intro s ev h; exact absurd h (by simp [engForM, EngM.pure])
  | cons a as ih =>
    intro s ev h
    rw [engForM] at h
    rcases EngM.bind_mem_events _ _ _ _ h with h1 | ⟨t1, s1, b, hx, h2⟩
    · exact hstep a s ev h1
    · exact ih s1 ev h2

theorem engForM_events_mem {σ α : Type} (f : α → EngM σ Unit) (C : Event → Prop)
    (l : List α) (hstep : ∀ a ∈ l, ∀ s ev, ev ∈ (f a s).1 → C ev) :
    ∀ s ev, ev ∈ (engForM f l s).1 → C ev := by
  induction l with
  | nil => intro s ev h; exact absurd h (by simp [engForM, EngM.pure])
  | cons a as ih =>
    intro s ev h
    rw [engForM] at h
    rcases EngM.bind_mem_events _ _ _ _ h with h1 | ⟨t1, s1, b, hx, h2⟩
    · exact hstep a (List.mem_cons_self a as) s ev h1
    · exact ih (fun a2 ha2 => hstep a2 (List.mem_cons_of_mem a ha2)) s1 ev h2

theorem createOneGroup_events (gw : Gateway σ) (invId : Int) (pg : PlanGroup) (s : σ)
    (ev : Event) (h : ev ∈ (createOneGroup gw invId pg s).1) :
    ∃ g, ev.call = Call.createGroup g := by
  unfold createOneGroup at h
  rcases EngM.bind_mem_events _ _ _ _ h with h1 | ⟨t1, s1, b, hx, h2⟩
  · exact ⟨groupRequest invId pg, gwCall_mem_events _ _ _ _ _ _ h1⟩
  · exact absurd h2 (pure_mem_events _ _ _)

theorem createOneHost_events (gw : Gateway σ) (invId : Int) (ph : PlanHost) (s : σ)
    (ev : Event) (h : ev ∈ (createOneHost gw invId ph s).1) :
    ∃ h2, ev.call = Call.createHost h2 := by
  unfold createOneHost at h
  rcases EngM.bind_mem_events _ _ _ _ h with h1 | ⟨t1, s1, b, hx, h2⟩
  · exact ⟨hostRequest invId ph, gwCall_mem_events _ _ _ _ _ _ h1⟩
  · exact absurd h2 (pure_mem_events _ _ _)

theorem createGroupsPhase_events (gw : Gateway σ) (invId : Int) (pgs : List PlanGroup)
    (s : σ) (ev : Event) (h : ev ∈ (createGroupsPhase gw invId pgs s).1) :
    ∃ g, ev.call = Call.createGroup g := by
  exact engMapM_events_all _ _ (fun a s2 ev2 hh => createOneGroup_events gw invId a s2 ev2 hh)
    pgs s ev h

theorem createHostsPhase_events (gw : Gateway σ) (invId : Int) (phs : List PlanHost)
    (s : σ) (ev : Event) (h : ev ∈ (createHostsPhase gw invId phs s).1) :
    ∃ h2, ev.call = Call.createHost h2 := by
  exact engMapM_events_all _ _ (fun a s2 ev2 hh => createOneHost_events gw invId a s2 ev2 hh)
    phs s ev h

theorem createAddChildStep_events (gw : Gateway σ) (ng : List AapGroup) (g : AapGroup)
    (n : String) (s : σ) (ev : Event) (h : ev ∈ (createAddChildStep gw ng g n s).1) :
    ∃ c, ev.call = Call.addChildToGroup g.id c ∧ ∃ gm ∈ ng, gm.id = c := by
  unfold createAddChildStep at h
  cases hres : GroupIdFromName n ng with
  | error e =>
    rw [hres] at h
    exact absurd h (abort_mem_events _ _ _)
  | ok i =>
    rw [hres] at h
    refine ⟨i, gwCallUnit_mem_events _ _ _ _ _ h, ?_⟩
    obtain ⟨gm, hgm, _, hid⟩ := GroupIdFromName_ok_mem n ng i hres
    exact ⟨gm, hgm, hid⟩

theorem createAddHostGroupStep_events (gw : Gateway σ) (ng : List AapGroup) (h0 : AapHost)
    (n : String) (s : σ) (ev : Event) (h : ev ∈ (createAddHostGroupStep gw ng h0 n s).1) :
    ∃ c, ev.call = Call.addGroupToHost h0.id c ∧ ∃ gm ∈ ng, gm.id = c := by
  unfold createAddHostGroupStep at h
  cases hres : GroupIdFromName n ng with
  | error e =>
    rw [hres] at h
    exact absurd h (abort_mem_events _ _ _)
  | ok i =>
    rw [hres] at h
    refine ⟨i, gwCallUnit_mem_events _ _ _ _ _ h, ?_⟩
    obtain ⟨gm, hgm, _, hid⟩ := GroupIdFromName_ok_mem n ng i hres
    exact ⟨gm, hgm, hid⟩

theorem associateChildrenPhase_events (gw : Gateway σ) (ng : List AapGroup) (s : σ)
    (ev : Event) (h : ev ∈ (associateChildrenPhase gw ng s).1) :
    ∃ p c, ev.call = Call.addChildToGroup p c ∧
      (∃ gm ∈ ng, gm.id = p) ∧ (∃ gm ∈ ng, gm.id = c) := by
  unfold associateChildrenPhase at h
  refine engForM_events_mem _
    (fun ev3 => ∃ p c, ev3.call = Call.addChildToGroup p c ∧
      (∃ gm ∈ ng, gm.id = p) ∧ (∃ gm ∈ ng, gm.id = c)) ng ?_ s ev h
  intro g hg s2 ev2 h2
  unfold addChildrenOfGroup at h2
  have := engForM_events_all (createAddChildStep gw ng g)
    (fun ev3 => ∃ c, ev3.call = Call.addChildToGroup g.id c ∧ ∃ gm ∈ ng, gm.id = c)
    (fun a s3 ev3 hh => createAddChildStep_events gw ng g a s3 ev3 hh) g.children s2 ev2 h2
  obtain ⟨c, hcall, hcm⟩ := this
  exact ⟨g.id, c, hcall, ⟨g, hg, rfl⟩, hcm⟩

theorem associateHostGroupsPhase_events (gw : Gateway σ) (ng : List AapGroup)
    (nh : List AapHost) (s : σ) (ev : Event)
    (h : ev ∈ (associateHostGroupsPhase gw ng nh s).1) :
    ∃ p c, ev.call = Call.addGroupToHost p c ∧
      (∃ hm ∈ nh, hm.id = p) ∧ (∃ gm ∈ ng, gm.id = c) := by
  unfold associateHostGroupsPhase at h
  refine engForM_events_mem _
    (fun ev3 => ∃ p c, ev3.call = Call.addGroupToHost p c ∧
      (∃ hm ∈ nh, hm.id = p) ∧ (∃ gm ∈ ng, gm.id = c)) nh ?_ s ev h
  intro h0 hh0 s2 ev2 h2
  unfold addGroupsOfHost at h2
  have := engForM_events_all (createAddHostGroupStep gw ng h0)
    (fun ev3 => ∃ c, ev3.call = Call.addGroupToHost h0.id c ∧ ∃ gm ∈ ng, gm.id = c)
    (fun a s3 ev3 hh => createAddHostGroupStep_events gw ng h0 a s3 ev3 hh) h0.groups s2 ev2 h2
  obtain ⟨c, hcall, hcm⟩ := this
  exact ⟨h0.id, c, hcall, ⟨h0, hh0, rfl⟩, hcm⟩

theorem GroupCreatedIn_append_left (t t2 : List Event) (i : Int)
    (h : GroupCreatedIn t i) : GroupCreatedIn (t ++ t2) i := by
  obtain ⟨req, resp, hmem, hid⟩ := h
  exact ⟨req, resp, List.mem_append_left t2 hmem, hid⟩

theorem GroupCreatedIn_append_right (t t2 : List Event) (i : Int)
    (h : GroupCreatedIn t i) : GroupCreatedIn (t2 ++ t) i := by
  obtain ⟨req, resp, hmem, hid⟩ := h
  exact ⟨req, resp, List.mem_append_right t2 hmem, hid⟩

theorem HostCreatedIn_append_left (t t2 : List Event) (i : Int)
    (h : HostCreatedIn t i) : HostCreatedIn (t ++ t2) i := by
  obtain ⟨req, resp, hmem, hid⟩ := h
  exact ⟨req, resp, List.mem_append_left t2 hmem, hid⟩

theorem HostCreatedIn_append_right (t t2 : List Event) (i : Int)
    (h : HostCreatedIn t i) : HostCreatedIn (t2 ++ t) i := by
  obtain ⟨req, resp, hmem, hid⟩ := h
  exact ⟨req, resp, List.mem_append_right t2 hmem, hid⟩

theorem aac_append (t1 t2 past : List Event)
    (h1 : AssocAfterCreates past t1) (h2 : AssocAfterCreates (past ++ t1) t2) :
    AssocAfterCreates past (t1 ++ t2) := by
  induction t1 generalizing past with
  | nil =>
    simp only [List.append_nil] at h2
    simpa using h2
  | cons ev rest ih =>
    rw [AssocAfterCreates] at h1
    rw [List.cons_append, AssocAfterCreates]
    refine ⟨h1.1, h1.2.1, ?_⟩
    apply ih (past ++ [ev]) h1.2.2
    rw [List.append_assoc]
    simpa using h2

theorem aac_no_assoc (t : List Event) (past : List Event)
    (h : ∀ ev ∈ t, (∀ p c, ev.call ≠ Call.addChildToGroup p c) ∧
      (∀ p c, ev.call ≠ Call.addGroupToHost p c)) :
    AssocAfterCreates past t := by
  induction t generalizing past with
  | nil => exact trivial
  | cons ev rest ih =>
    rw [AssocAfterCreates]
    have hev := h ev (List.mem_cons_self ev rest)
    refine ⟨fun p c hc => absurd hc (hev.1 p c), fun p c hc => absurd hc (hev.2 p c), ?_⟩
    exact ih (past ++ [ev]) (fun e he => h e (List.mem_cons_of_mem ev he))

theorem aac_created (t : List Event) (past : List Event)
    (h : ∀ ev ∈ t,
      (∀ p c, ev.call = Call.addChildToGroup p c →
        GroupCreatedIn past p ∧ GroupCreatedIn past c) ∧
      (∀ p c, ev.call = Call.addGroupToHost p c →
        HostCreatedIn past p ∧ GroupCreatedIn past c)) :
    AssocAfterCreates past t := by
  induction t generalizing past with
  | nil => exact trivial
  | cons ev rest ih =>
    rw [AssocAfterCreates]
    have hev := h ev (List.mem_cons_self ev rest)
    refine ⟨hev.1, hev.2, ?_⟩
    apply ih (past ++ [ev])
    intro e he
    have he2 := h e (List.mem_cons_of_mem ev he)
    constructor
    · intro p c hc
      obtain ⟨hp, hcc⟩ := he2.1 p c hc
      exact ⟨GroupCreatedIn_append_left past [ev] p hp,
        GroupCreatedIn_append_left past [ev] c hcc⟩
    · intro p c hc
      obtain ⟨hp, hcc⟩ := he2.2 p c hc
      exact ⟨HostCreatedIn_append_left past [ev] p hp,
        GroupCreatedIn_append_left past [ev] c hcc⟩

theorem createGroupsPhase_created (gw : Gateway σ) (invId : Int) (pgs : List PlanGroup)
    (s : σ) (t : List Event) (s1 : σ) (gs : List AapGroup)
    (h : createGroupsPhase gw invId pgs s = (t, s1, Except.ok gs)) :
    ∀ g ∈ gs, GroupCreatedIn t g.id := by
  refine engMapM_ok_elem (createOneGroup gw invId) (fun b t2 => GroupCreatedIn t2 b.id)
    (fun b t2 t3 hq => GroupCreatedIn_append_left t2 t3 b.id hq)
    (fun b t2 t3 hq => GroupCreatedIn_append_right t2 t3 b.id hq)
    ?_ pgs s t s1 gs h
  intro a s2 t2 s3 b hb
  obtain ⟨⟨resp, ht2, hid⟩, _, _⟩ := createOneGroup_ok gw invId a s2 t2 s3 b hb
  subst ht2
  exact ⟨groupRequest invId a, resp, List.mem_singleton.mpr rfl, hid.symm⟩

theorem createHostsPhase_created (gw : Gateway σ) (invId : Int) (phs : List PlanHost)
    (s : σ) (t : List Event) (s1 : σ) (hs : List AapHost)
    (h : createHostsPhase gw invId phs s = (t, s1, Except.ok hs)) :
    ∀ h2 ∈ hs, HostCreatedIn t h2.id := by
  refine engMapM_ok_elem (createOneHost gw invId) (fun b t2 => HostCreatedIn t2 b.id)
    (fun b t2 t3 hq => HostCreatedIn_append_left t2 t3 b.id hq)
    (fun b t2 t3 hq => HostCreatedIn_append_right t2 t3 b.id hq)
    ?_ phs s t s1 hs h
  intro a s2 t2 s3 b hb
  obtain ⟨⟨resp, ht2, hid⟩, _, _⟩ := createOneHost_ok gw invId a s2 t2 s3 b hb
  subst ht2
  exact ⟨hostRequest invId a, resp, List.mem_singleton.mpr rfl, hid.symm⟩

theorem aac_child_assoc_phase (gw : Gateway σ) (ng : List AapGroup) (s : σ)
    (past : List Event) (hcreated : ∀ g ∈ ng, GroupCreatedIn past g.id) :
    AssocAfterCreates past ((associateChildrenPhase gw ng s).1) := by
  apply aac_created
  intro ev hev
  obtain ⟨p, c, hcall, ⟨gp, hgp, hgpid⟩, ⟨gc, hgc, hgcid⟩⟩ :=
    associateChildrenPhase_events gw ng s ev hev
  constructor
  · intro p2 c2 hc2
    rw [hcall] at hc2
    injection hc2 with hp hc
    subst hp
    subst hc
    exact ⟨hgpid ▸ hcreated gp hgp, hgcid ▸ hcreated gc hgc⟩
  · intro p2 c2 hc2
    rw [hcall] at hc2
    cases hc2

theorem aac_host_assoc_phase (gw : Gateway σ) (ng : List AapGroup) (nh : List AapHost)
    (s : σ) (past : List Event)
    (hg : ∀ g ∈ ng, GroupCreatedIn past g.id)
    (hh : ∀ h2 ∈ nh, HostCreatedIn past h2.id) :
    AssocAfterCreates past ((associateHostGroupsPhase gw ng nh s).1) := by
  apply aac_created
  intro ev hev
  obtain ⟨p, c, hcall, ⟨hp0, hhp, hhpid⟩, ⟨gc, hgc, hgcid⟩⟩ :=
    associateHostGroupsPhase_events gw ng nh s ev hev
  constructor
  · intro p2 c2 hc2
    rw [hcall] at hc2
    cases hc2
  · intro p2 c2 hc2
    rw [hcall] at hc2
    injection hc2 with hp hc
    subst hp
    subst hc
    exact ⟨hhpid ▸ hh hp0 hhp, hgcid ▸ hg gc hgc⟩

theorem engOfExcept_ok_inv {σ α : Type} (x : Except String α) (s : σ) (t : List Event)
    (s1 : σ) (a : α) (h : (engOfExcept x : EngM σ α) s = (t, s1, Except.ok a)) :
    t = [] ∧ s1 = s ∧ x = Except.ok a := by
  cases x with
  | error e => exact absurd h (by simp [engOfExcept, EngM.abort])
  | ok b =>
    obtain ⟨h1, h2, h3⟩ := pure_ok_inv _ _ _ _ _ h
    exact ⟨h1, h2, by rw [h3]⟩

theorem aac_gwCall {σ ρ : Type} (past : List Event) (call : Call) (toOut : ρ → Outcome)
    (ctx : String) (act : σ → Except String (ρ × σ)) (s : σ)
    (h1 : ∀ p c, call ≠ Call.addChildToGroup p c)
    (h2 : ∀ p c, call ≠ Call.addGroupToHost p c) :
    AssocAfterCreates past ((gwCall call toOut ctx act s).1) := by
  apply aac_no_assoc
  intro ev hev
  have hc := gwCall_mem_events _ _ _ _ _ _ hev
  rw [hc]
  exact ⟨h1, h2⟩

theorem engOfExcept_events {σ α : Type} (x : Except String α) (s : σ) :
    ((engOfExcept x : EngM σ α) s).1 = [] := by
  cases x <;> simp [engOfExcept, EngM.abort, EngM.pure]

theorem runCreate_ordering (gw : Gateway σ) (plan : Plan) (s : σ) :
    AssocAfterCreates [] ((runCreate gw plan s).1) := by
  rw [runCreate]
  rcases EngM.bind_events _ _ s with h | ⟨t1, s1, newInventory, hx1, h⟩
  · rw [h]
    exact aac_gwCall _ _ _ _ _ _ (fun p c hc => by cases hc) (fun p c hc => by cases hc)
  · rw [h]
    apply aac_append
    · have ht1 : t1 = ((gwCall (Call.createInventory
          { id := 0, organization := 1, name := plan.name, description := plan.description,
            vars := VariablesMapToString plan.vars }) Outcome.invResp
          ("Could not create AAP inventory, unexpected error: ")
          (gw.createInventory
            { id := 0, organization := 1, name := plan.name, description := plan.description,
              vars := VariablesMapToString plan.vars })) s).1 := by
        rw [hx1]
      rw [ht1]
      exact aac_gwCall _ _ _ _ _ _ (fun p c hc => by cases hc) (fun p c hc => by cases hc)
    · rw [List.nil_append]
      rcases EngM.bind_events _ _ s1 with h2 | ⟨t2, s2, invVars, hx2, h2⟩
      · rw [h2, engOfExcept_events]
        exact trivial
      · rw [h2]
        obtain ⟨ht2, _, _⟩ := engOfExcept_ok_inv _ _ _ _ _ hx2
        subst ht2
        rw [List.nil_append]
        rcases EngM.bind_events _ _ s2 with h3 | ⟨t3, s3, newGroups, hx3, h3⟩
        · rw [h3]
          apply aac_no_assoc
          intro ev hev
          obtain ⟨g, hg⟩ := createGroupsPhase_events gw newInventory.id plan.groups s2 ev hev
          rw [hg]
          exact And.intro (fun p c hc => nomatch hc) (fun p c hc => nomatch hc)
        · rw [h3]
          have hcreatedG : ∀ g ∈ newGroups, GroupCreatedIn t3 g.id :=
            createGroupsPhase_created gw newInventory.id plan.groups s2 t3 s3 newGroups hx3
          apply aac_append
          · have ht3 : t3 = ((createGroupsPhase gw newInventory.id plan.groups) s2).1 := by
              rw [hx3]
            rw [ht3]
            apply aac_no_assoc
            intro ev hev
            obtain ⟨g, hg⟩ := createGroupsPhase_events gw newInventory.id plan.groups s2 ev hev
            rw [hg]
            exact And.intro (fun p c hc => nomatch hc) (fun p c hc => nomatch hc)
          · have hcreatedG1 : ∀ g ∈ newGroups, GroupCreatedIn (t1 ++ t3) g.id :=
              fun g hg => GroupCreatedIn_append_right _ t1 _ (hcreatedG g hg)
            rcases EngM.bind_events _ _ s3 with h4 | ⟨t4, s4, u4, hx4, h4⟩
            · rw [h4]
              exact aac_child_assoc_phase gw newGroups s3 (t1 ++ t3) hcreatedG1
            · rw [h4]
              apply aac_append
              · have ht4 : t4 = ((associateChildrenPhase gw newGroups) s3).1 := by rw [hx4]
                rw [ht4]
                exact aac_child_assoc_phase gw newGroups s3 (t1 ++ t3) hcreatedG1
              · have hcreatedG2 : ∀ g ∈ newGroups, GroupCreatedIn ((t1 ++ t3) ++ t4) g.id :=
                  fun g hg => GroupCreatedIn_append_left _ t4 _ (hcreatedG1 g hg)
                rcases EngM.bind_events _ _ s4 with h5 | ⟨t5, s5, sgs, hx5, h5⟩
                · rw [h5, engOfExcept_events]
                  exact trivial
                · rw [h5]
                  obtain ⟨ht5, _, _⟩ := engOfExcept_ok_inv _ _ _ _ _ hx5
                  subst ht5
                  rw [List.nil_append]
                  rcases EngM.bind_events _ _ s5 with h6 | ⟨t6, s6, newHosts, hx6, h6⟩
                  · rw [h6]
                    apply aac_no_assoc
                    intro ev hev
                    obtain ⟨hh, hg⟩ :=
                      createHostsPhase_events gw newInventory.id plan.hosts s5 ev hev
                    rw [hg]
                    exact And.intro (fun p c hc => nomatch hc) (fun p c hc => nomatch hc)
                  · rw [h6]
                    have hcreatedH : ∀ h2 ∈ newHosts, HostCreatedIn t6 h2.id :=
                      createHostsPhase_created gw newInventory.id plan.hosts s5 t6 s6
                        newHosts hx6
                    apply aac_append
                    · have ht6 : t6 =
                          ((createHostsPhase gw newInventory.id plan.hosts) s5).1 := by
                        rw [hx6]
                      rw [ht6]
                      apply aac_no_assoc
                      intro ev hev
                      obtain ⟨hh, hg⟩ :=
                        createHostsPhase_events gw newInventory.id plan.hosts s5 ev hev
                      rw [hg]
                      exact And.intro (fun p c hc => nomatch hc) (fun p c hc => nomatch hc)
                    · have hcreatedG3 :
                          ∀ g ∈ newGroups, GroupCreatedIn (((t1 ++ t3) ++ t4) ++ t6) g.id :=
                        fun g hg => GroupCreatedIn_append_left _ t6 _ (hcreatedG2 g hg)
                      have hcreatedH1 :
                          ∀ h2 ∈ newHosts, HostCreatedIn (((t1 ++ t3) ++ t4) ++ t6) h2.id :=
                        fun h2 hh2 => HostCreatedIn_append_right _ _ _ (hcreatedH h2 hh2)
                      rcases EngM.bind_events _ _ s6 with h7 | ⟨t7, s7, u7, hx7, h7⟩
                      · rw [h7]
                        exact aac_host_assoc_phase gw newGroups newHosts s6 _
                          hcreatedG3 hcreatedH1
                      · rw [h7]
                        apply aac_append
                        · have ht7 : t7 =
                              ((associateHostGroupsPhase gw newGroups newHosts) s6).1 := by
                            rw [hx7]
                          rw [ht7]
                          exact aac_host_assoc_phase gw newGroups newHosts s6 _
                            hcreatedG3 hcreatedH1
                        · rcases EngM.bind_events _ _ s7 with h8 | ⟨t8, s8, shs, hx8, h8⟩
                          · rw [h8, engOfExcept_events]
                            exact trivial
                          · rw [h8]
                            obtain ⟨ht8, _, _⟩ := engOfExcept_ok_inv _ _ _ _ _ hx8
                            subst ht8
                            rw [List.nil_append]
                            simp [EngM.pure]
                            exact trivial

theorem eventsOk_append (t1 t2 : List Event) (h1 : EventsOk t1) (h2 : EventsOk t2) :
    EventsOk (t1 ++ t2) := by
  intro ev hev
  rcases List.mem_append.mp hev with h | h
  · exact h1 ev h
  · exact h2 ev h

theorem okUntilLast_append (t1 t2 : List Event) (h1 : EventsOk t1) (h2 : OkUntilLast t2) :
    OkUntilLast (t1 ++ t2) := by
  cases ht2 : t2 with
  | nil =>
    intro ev hev
    simp only [List.append_nil] at hev
    exact h1 ev (List.dropLast_sublist t1 |>.mem hev)
  | cons a as =>
    intro ev hev
    rw [List.dropLast_append_of_ne_nil t1 (by simp [ht2])] at hev
    rcases List.mem_append.mp hev with h | h
    · exact h1 ev h
    · rw [← ht2] at h
      exact h2 ev h

theorem okUntilLast_of_eventsOk (t : List Event) (h : EventsOk t) : OkUntilLast t :=
  fun ev hev => h ev (List.dropLast_sublist t |>.mem hev)

theorem wb_pure {σ α : Type} (a : α) : WellBehaved (EngM.pure a : EngM σ α) := by
  refine ⟨?_, ?_, ?_⟩
  · intro s t s1 b h
    rw [(pure_ok_inv _ _ _ _ _ h).1]
    intro ev hev
    cases hev
  · intro s ev hev
    exact absurd hev (by simp [EngM.pure])
  · intro s t1 call msg e ht he
    exact absurd ht (by simp [EngM.pure])

theorem wb_abort {σ α : Type} (m : String) : WellBehaved (EngM.abort m : EngM σ α) := by
  refine ⟨?_, ?_, ?_⟩
  · intro s t s1 b h
    exact absurd h (by simp [EngM.abort])
  · intro s ev hev
    exact absurd hev (by simp [EngM.abort])
  · intro s t1 call msg e ht he
    exact absurd ht (by simp [EngM.abort])

theorem wb_engOfExcept {σ α : Type} (x : Except String α) :
    WellBehaved (engOfExcept x : EngM σ α) := by
  cases x with
  | error e => exact wb_abort e
  | ok a => exact wb_pure a

theorem wb_gwCall {σ ρ : Type} (call : Call) (toOut : ρ → Outcome) (ctx : String)
    (act : σ → Except String (ρ × σ))
    (htoOut : ∀ r, Event.hasErr (Event.mk call (toOut r)) = false) :
    WellBehaved (gwCall call toOut ctx act) := by
  refine ⟨?_, ?_, ?_⟩
  · intro s t s1 a h
    rw [(gwCall_ok_inv _ _ _ _ _ _ _ _ h).1]
    intro ev hev
    rw [List.mem_singleton.mp hev]
    exact htoOut a
  · intro s
    unfold gwCall
    cases hact : act s with
    | error e => intro ev hev; cases hev
    | ok p => obtain ⟨r, s2⟩ := p; intro ev hev; cases hev
  · intro s t1 call2 msg e ht he
    unfold gwCall at ht he
    cases hact : act s with
    | error e2 =>
      rw [hact] at ht he
      dsimp only at ht he
      have hmsg : msg = e2 := by
        have h3 : ([] : List Event) ++ [Event.mk call (Outcome.errResp e2)] =
            t1 ++ [Event.mk call2 (Outcome.errResp msg)] := by
          simpa using ht
        have h2 := (List.append_inj' h3 rfl).2
        injection h2 with hh hrest
        injection hh with hcall hout
        injection hout with hm
        exact hm.symm
      cases he
      exact ⟨ctx, by rw [hmsg]⟩
    | ok p =>
      obtain ⟨r, s2⟩ := p
      rw [hact] at he
      cases he

theorem wb_gwCallUnit {σ : Type} (call : Call) (ctx : String)
    (act : σ → Except String σ) : WellBehaved (gwCallUnit call ctx act) := by
  refine ⟨?_, ?_, ?_⟩
  · intro s t s1 a h
    rw [(gwCallUnit_ok_inv _ _ _ _ _ _ h).1]
    intro ev hev
    rw [List.mem_singleton.mp hev]
    rfl
  · intro s
    unfold gwCallUnit
    cases hact : act s with
    | error e => intro ev hev; cases hev
    | ok s2 => intro ev hev; cases hev
  · intro s t1 call2 msg e ht he
    unfold gwCallUnit at ht he
    cases hact : act s with
    | error e2 =>
      rw [hact] at ht he
      dsimp only at ht he
      have hmsg : msg = e2 := by
        have h3 : ([] : List Event) ++ [Event.mk call (Outcome.errResp e2)] =
            t1 ++ [Event.mk call2 (Outcome.errResp msg)] := by
          simpa using ht
        have h2 := (List.append_inj' h3 rfl).2
        injection h2 with hh hrest
        injection hh with hcall hout
        injection hout with hm
        exact hm.symm
      cases he
      exact ⟨ctx, by rw [hmsg]⟩
    | ok s2 =>
      rw [hact] at he
      cases he

theorem wb_bind {σ α β : Type} (x : EngM σ α) (f : α → EngM σ β)
    (hx : WellBehaved x) (hf : ∀ a, WellBehaved (f a)) : WellBehaved (EngM.bind x f) := by
  refine ⟨?_, ?_, ?_⟩
  · intro s t s1 a h
    obtain ⟨t1, sm, b, t2, hxs, hfs, ht⟩ := EngM.bind_ok_inv _ _ _ _ _ _ h
    subst ht
    exact eventsOk_append t1 t2 (hx.1 s t1 sm b hxs) ((hf b).1 sm t2 s1 a hfs)
  · intro s
    rcases EngM.bind_events x f s with he | ⟨t1, s1, a, hxs, he⟩
    · rw [he]
      exact hx.2.1 s
    · rw [he]
      apply okUntilLast_append
      · exact hx.1 s t1 s1 a hxs
      · exact (hf a).2.1 s1
  · intro s t1 call msg e ht he
    have hbind : EngM.bind x f s = ((EngM.bind x f s).1, (EngM.bind x f s).2.1,
        (EngM.bind x f s).2.2) := rfl
    rw [ht, he] at hbind
    rcases EngM.bind_err_inv x f s _ _ _ hbind with hcase | ⟨tx, sm, a, tf, hxs, hfs, hT⟩
    · exact hx.2.2 s t1 call msg e (by rw [hcase]) (by rw [hcase])
    · have hok : EventsOk tx := hx.1 s tx sm a hxs
      rcases List.eq_nil_or_concat tf with htf | ⟨tf2, lastEv, htf⟩
      · subst htf
        rw [List.append_nil] at hT
        have hmem : Event.mk call (Outcome.errResp msg) ∈ tx := by
          rw [← hT]
          exact List.mem_append_right t1 (List.mem_singleton.mpr rfl)
        have := hok _ hmem
        simp [Event.hasErr] at this
      · subst htf
        rw [List.concat_eq_append, ← List.append_assoc] at hT
        rcases List.append_inj' hT rfl with ⟨h1, h2⟩
        have hlast : lastEv = Event.mk call (Outcome.errResp msg) := by
          injection h2 with hh hr
          exact hh.symm
        exact (hf a).2.2 sm tf2 call msg e
          (by rw [hfs, List.concat_eq_append, hlast]) (by rw [hfs])

theorem wb_engMapM {σ α β : Type} (f : α → EngM σ β) (hf : ∀ a, WellBehaved (f a)) :
    ∀ l, WellBehaved (engMapM f l) := by
  intro l
  induction l with
  | nil => exact wb_pure []
  | cons a as ih =>
    rw [engMapM]
    exact wb_bind _ _ (hf a) (fun b => wb_bind _ _ ih (fun bs => wb_pure (b :: bs)))

theorem wb_engForM {σ α : Type} (f : α → EngM σ Unit) (hf : ∀ a, WellBehaved (f a)) :
    ∀ l, WellBehaved (engForM f l) := by
  intro l
  induction l with
  | nil => exact wb_pure ()
  | cons a as ih =>
    rw [engForM]
    exact wb_bind _ _ (hf a) (fun _ => ih)

theorem wb_createOneGroup (gw : Gateway σ) (invId : Int) (pg : PlanGroup) :
    WellBehaved (createOneGroup gw invId pg) := by
  unfold createOneGroup
  exact wb_bind _ _ (wb_gwCall _ _ _ _ (fun r => rfl)) (fun b => wb_pure _)

theorem wb_createOneHost (gw : Gateway σ) (invId : Int) (ph : PlanHost) :
    WellBehaved (createOneHost gw invId ph) := by
  unfold createOneHost
  exact wb_bind _ _ (wb_gwCall _ _ _ _ (fun r => rfl)) (fun b => wb_pure _)

theorem wb_createAddChildStep (gw : Gateway σ) (ng : List AapGroup) (g : AapGroup)
    (n : String) : WellBehaved (createAddChildStep gw ng g n) := by
  unfold createAddChildStep
  cases hres : GroupIdFromName n ng with
  | error e => exact wb_abort _
  | ok i => exact wb_gwCallUnit _ _ _

theorem wb_createAddHostGroupStep (gw : Gateway σ) (ng : List AapGroup) (h0 : AapHost)
    (n : String) : WellBehaved (createAddHostGroupStep gw ng h0 n) := by
  unfold createAddHostGroupStep
  cases hres : GroupIdFromName n ng with
  | error e => exact wb_abort _
  | ok i => exact wb_gwCallUnit _ _ _

theorem wb_addChildStep (gw : Gateway σ) (ug : List AapGroup) (g : AapGroup)
    (cc : List AapGroup) (n : String) : WellBehaved (addChildStep gw ug g cc n) := by
  unfold addChildStep
  by_cases hmem : cc.any (fun c => c.name == n)
  · rw [if_pos hmem]
    exact wb_pure ()
  · rw [if_neg hmem]
    cases hres : GroupIdFromName n ug with
    | error e => exact wb_abort _
    | ok i => exact wb_gwCallUnit _ _ _

theorem wb_removeChildStep (gw : Gateway σ) (g : AapGroup) (child : AapGroup) :
    WellBehaved (removeChildStep gw g child) := by
  unfold removeChildStep
  by_cases hmem : g.children.contains child.name
  · rw [if_pos hmem]
    exact wb_pure ()
  · rw [if_neg hmem]
    exact wb_gwCallUnit _ _ _

theorem wb_addHostGroupStep (gw : Gateway σ) (ug : List AapGroup) (h0 : AapHost)
    (chg : List AapGroup) (n : String) : WellBehaved (addHostGroupStep gw ug h0 chg n) := by
  unfold addHostGroupStep
  by_cases hmem : chg.any (fun g => g.name == n)
  · rw [if_pos hmem]
    exact wb_pure ()
  · rw [if_neg hmem]
    cases hres : GroupIdFromName n ug with
    | error e => exact wb_abort _
    | ok i => exact wb_gwCallUnit _ _ _

theorem wb_removeHostGroupStep (gw : Gateway σ) (h0 : AapHost) (hostGroup : AapGroup) :
    WellBehaved (removeHostGroupStep gw h0 hostGroup) := by
  unfold removeHostGroupStep
  by_cases hmem : h0.groups.contains hostGroup.name
  · rw [if_pos hmem]
    exact wb_pure ()
  · rw [if_neg hmem]
    exact wb_gwCallUnit _ _ _

theorem wb_deleteGroupStep (gw : Gateway σ) (us : List AapGroup) (cg : AapGroup) :
    WellBehaved (deleteGroupStep gw us cg) := by
  unfold deleteGroupStep
  by_cases hmem : us.any (fun g => g.id == cg.id)
  · rw [if_pos hmem]
    exact wb_pure ()
  · rw [if_neg hmem]
    exact wb_gwCallUnit _ _ _

theorem wb_deleteHostStep (gw : Gateway σ) (us : List AapHost) (ch : AapHost) :
    WellBehaved (deleteHostStep gw us ch) := by
  unfold deleteHostStep
  by_cases hmem : us.any (fun h2 => h2.id == ch.id)
  · rw [if_pos hmem]
    exact wb_pure ()
  · rw [if_neg hmem]
    exact wb_gwCallUnit _ _ _

theorem wb_createOrUpdateGroup (gw : Gateway σ) (invId : Int) (current : List AapGroup)
    (pg : PlanGroup) : WellBehaved (createOrUpdateGroup gw invId current pg) := by
  unfold createOrUpdateGroup
  refine wb_bind _ _ ?_ (fun b => wb_pure _)
  by_cases hc : current.any (fun cg => cg.id == pg.id)
  · rw [if_pos hc]
    exact wb_gwCall _ _ _ _ (fun r => rfl)
  · rw [if_neg hc]
    exact wb_gwCall _ _ _ _ (fun r => rfl)

theorem wb_createOrUpdateHost (gw : Gateway σ) (invId : Int) (current : List AapHost)
    (ph : PlanHost) : WellBehaved (createOrUpdateHost gw invId current ph) := by
  unfold createOrUpdateHost
  refine wb_bind _ _ ?_ (fun b => wb_pure _)
  by_cases hc : current.any (fun ch => ch.id == ph.id)
  · rw [if_pos hc]
    exact wb_gwCall _ _ _ _ (fun r => rfl)
  · rw [if_neg hc]
    exact wb_gwCall _ _ _ _ (fun r => rfl)

theorem wb_reconcileGroupChildren (gw : Gateway σ) (ug : List AapGroup) (g : AapGroup) :
    WellBehaved (reconcileGroupChildren gw ug g) := by
  unfold reconcileGroupChildren
  refine wb_bind _ _ (wb_gwCall _ _ _ _ (fun r => rfl)) (fun cc => ?_)
  refine wb_bind _ _ (wb_engForM _ (fun n => wb_addChildStep gw ug g cc n) g.children)
    (fun _ => wb_engForM _ (fun c => wb_removeChildStep gw g c) cc)

theorem wb_reconcileHostGroups (gw : Gateway σ) (ug : List AapGroup) (h0 : AapHost) :
    WellBehaved (reconcileHostGroups gw ug h0) := by
  unfold reconcileHostGroups
  refine wb_bind _ _ (wb_gwCall _ _ _ _ (fun r => rfl)) (fun chg => ?_)
  refine wb_bind _ _ (wb_engForM _ (fun n => wb_addHostGroupStep gw ug h0 chg n) h0.groups)
    (fun _ => wb_engForM _ (fun c => wb_removeHostGroupStep gw h0 c) chg)

theorem wb_runCreate (gw : Gateway σ) (plan : Plan) : WellBehaved (runCreate gw plan) := by
  rw [runCreate]
  refine wb_bind _ _ (wb_gwCall _ _ _ _ (fun r => rfl)) (fun newInventory => ?_)
  refine wb_bind _ _ (wb_engOfExcept _) (fun invVars => ?_)
  refine wb_bind _ _ (wb_engMapM _ (fun pg => wb_createOneGroup gw newInventory.id pg) _)
    (fun newGroups => ?_)
  refine wb_bind _ _ (wb_engForM _ (fun g => ?_) newGroups) (fun _ => ?_)
  · unfold addChildrenOfGroup
    exact wb_engForM _ (fun n => wb_createAddChildStep gw newGroups g n) g.children
  · refine wb_bind _ _ (wb_engOfExcept _) (fun sgs => ?_)
    refine wb_bind _ _ (wb_engMapM _ (fun ph => wb_createOneHost gw newInventory.id ph) _)
      (fun newHosts => ?_)
    refine wb_bind _ _ (wb_engForM _ (fun h0 => ?_) newHosts) (fun _ => ?_)
    · unfold addGroupsOfHost
      exact wb_engForM _ (fun n => wb_createAddHostGroupStep gw newGroups h0 n) h0.groups
    · exact wb_bind _ _ (wb_engOfExcept _) (fun shs => wb_pure _)

theorem wb_runUpdate (gw : Gateway σ) (plan : Plan) : WellBehaved (runUpdate gw plan) := by
  rw [runUpdate]
  refine wb_bind _ _ (wb_gwCall _ _ _ _ (fun r => rfl)) (fun updatedInventory => ?_)
  refine wb_bind _ _ (wb_engOfExcept _) (fun invVars => ?_)
  refine wb_bind _ _ (wb_gwCall _ _ _ _ (fun r => rfl)) (fun currentGroups => ?_)
  refine wb_bind _ _ (wb_engMapM _
    (fun pg => wb_createOrUpdateGroup gw updatedInventory.id currentGroups pg) _)
    (fun updatedGroups => ?_)
  refine wb_bind _ _ ?_ (fun _ => ?_)
  · unfold deleteAbsentGroupsPhase
    exact wb_engForM _ (fun cg => wb_deleteGroupStep gw updatedGroups cg) currentGroups
  · refine wb_bind _ _ ?_ (fun _ => ?_)
    · unfold reconcileChildrenPhase
      exact wb_engForM _ (fun g => wb_reconcileGroupChildren gw updatedGroups g) updatedGroups
    · refine wb_bind _ _ (wb_engOfExcept _) (fun sgs => ?_)
      refine wb_bind _ _ (wb_gwCall _ _ _ _ (fun r => rfl)) (fun currentHosts => ?_)
      refine wb_bind _ _ (wb_engMapM _
        (fun ph => wb_createOrUpdateHost gw updatedInventory.id currentHosts ph) _)
        (fun updatedHosts => ?_)
      refine wb_bind _ _ ?_ (fun _ => ?_)
      · unfold deleteAbsentHostsPhase
        exact wb_engForM _ (fun ch => wb_deleteHostStep gw updatedHosts ch) currentHosts
      · refine wb_bind _ _ ?_ (fun _ => ?_)
        · unfold reconcileHostGroupsPhase
          exact wb_engForM _ (fun h0 => wb_reconcileHostGroups gw updatedGroups h0)
            updatedHosts
        · exact wb_bind _ _ (wb_engOfExcept _) (fun shs => wb_pure _)

theorem forall₂_compose {α β γ : Type} (P : α → β → Prop) (Q : β → γ → Prop)
    (R : α → γ → Prop) (hc : ∀ a b c, P a b → Q b c → R a c) :
    ∀ l1 l2 l3, List.Forall₂ P l1 l2 → List.Forall₂ Q l2 l3 → List.Forall₂ R l1 l3 := by
  intro l1
  induction l1 with
  | nil =>
    intro l2 l3 h1 h2
    cases h1
    cases h2
    exact List.Forall₂.nil
  | cons a as ih =>
    intro l2 l3 h1 h2
    cases h1 with
    | cons hab h1rest =>
      cases h2 with
      | cons hbc h2rest =>
        exact List.Forall₂.cons (hc _ _ _ hab hbc) (ih _ _ h1rest h2rest)

theorem GroupsToSchema_forall₂ (gs : List AapGroup) (sgs : List SchemaGroup)
    (h : GroupsToSchema gs = Except.ok sgs) :
    List.Forall₂ (fun (g : AapGroup) (sg : SchemaGroup) =>
      sg.children = (if g.children.isEmpty then none else some g.children) ∧
      sg.name = g.name) gs sgs := by
  induction gs generalizing sgs with
  | nil =>
    rw [GroupsToSchema] at h
    cases h
    exact List.Forall₂.nil
  | cons g rest ih =>
    rw [GroupsToSchema] at h
    cases hg : groupToSchema g with
    | error e => rw [hg] at h; cases h
    | ok sg =>
      rw [hg] at h
      cases hrest : GroupsToSchema rest with
      | error e => rw [hrest] at h; cases h
      | ok sgs2 =>
        rw [hrest] at h
        cases h
        refine List.Forall₂.cons ?_ (ih sgs2 hrest)
        unfold groupToSchema at hg
        cases hv : VariablesStringToMap g.vars with
        | error e => rw [hv] at hg; cases hg
        | ok vs =>
          rw [hv] at hg
          cases hg
          exact ⟨rfl, rfl⟩

theorem HostsToSchema_forall₂ (hs : List AapHost) (shs : List SchemaHost)
    (h : HostsToSchema hs = Except.ok shs) :
    List.Forall₂ (fun (h0 : AapHost) (sh : SchemaHost) =>
      sh.groups = (if h0.groups.isEmpty then none else some h0.groups) ∧
      sh.name = h0.name) hs shs := by
  induction hs generalizing shs with
  | nil =>
    rw [HostsToSchema] at h
    cases h
    exact List.Forall₂.nil
  | cons h0 rest ih =>
    rw [HostsToSchema] at h
    cases hg : hostToSchema h0 with
    | error e => rw [hg] at h; cases h
    | ok sh =>
      rw [hg] at h
      cases hrest : HostsToSchema rest with
      | error e => rw [hrest] at h; cases h
      | ok shs2 =>
        rw [hrest] at h
        cases h
        refine List.Forall₂.cons ?_ (ih shs2 hrest)
        unfold hostToSchema at hg
        cases hv : VariablesStringToMap h0.vars with
        | error e => rw [hv] at hg; cases hg
        | ok vs =>
          rw [hv] at hg
          cases hg
          exact ⟨rfl, rfl⟩

theorem runCreate_ok_inv (gw : Gateway σ) (plan : Plan) (s : σ) (t : List Event) (sf : σ)
    (snap : Snapshot) (h : runCreate gw plan s = (t, sf, Except.ok snap)) :
    ∃ newInventory invVars newGroups sgs newHosts shs,
      (∃ t3 s2 s3, createGroupsPhase gw newInventory.id plan.groups s2 =
        (t3, s3, Except.ok newGroups)) ∧
      (∃ t6 s5 s6, createHostsPhase gw newInventory.id plan.hosts s5 =
        (t6, s6, Except.ok newHosts)) ∧
      GroupsToSchema newGroups = Except.ok sgs ∧
      HostsToSchema newHosts = Except.ok shs ∧
      snap = buildSnapshot newInventory invVars sgs shs := by
  rw [runCreate] at h
  obtain ⟨t1, s1, newInventory, t2, hx1, h, ht⟩ := EngM.bind_ok_inv _ _ _ _ _ _ h
  obtain ⟨t2a, s2, invVars, t2b, hx2, h, ht2⟩ := EngM.bind_ok_inv _ _ _ _ _ _ h
  obtain ⟨t3, s3, newGroups, t4r, hx3, h, ht3⟩ := EngM.bind_ok_inv _ _ _ _ _ _ h
  obtain ⟨t4, s4, u4, t5r, hx4, h, ht4⟩ := EngM.bind_ok_inv _ _ _ _ _ _ h
  obtain ⟨t5, s5, sgs, t6r, hx5, h, ht5⟩ := EngM.bind_ok_inv _ _ _ _ _ _ h
  obtain ⟨t6, s6, newHosts, t7r, hx6, h, ht6⟩ := EngM.bind_ok_inv _ _ _ _ _ _ h
  obtain ⟨t7, s7, u7, t8r, hx7, h, ht7⟩ := EngM.bind_ok_inv _ _ _ _ _ _ h
  obtain ⟨t8, s8, shs, t9r, hx8, h, ht8⟩ := EngM.bind_ok_inv _ _ _ _ _ _ h
  obtain ⟨_, _, hsnap⟩ := pure_ok_inv _ _ _ _ _ h
  obtain ⟨_, _, hsgs⟩ := engOfExcept_ok_inv _ _ _ _ _ hx5
  obtain ⟨_, _, hshs⟩ := engOfExcept_ok_inv _ _ _ _ _ hx8
  exact ⟨newInventory, invVars, newGroups, sgs, newHosts, shs,
    ⟨t3, s2, s3, hx3⟩, ⟨t6, s5, s6, hx6⟩, hsgs, hshs, hsnap⟩

theorem runUpdate_ok_inv (gw : Gateway σ) (plan : Plan) (s : σ) (t : List Event) (sf : σ)
    (snap : Snapshot) (h : runUpdate gw plan s = (t, sf, Except.ok snap)) :
    ∃ updatedInventory invVars currentGroups updatedGroups sgs currentHosts updatedHosts shs,
      (∃ t4 s3 s4, engMapM (createOrUpdateGroup gw updatedInventory.id currentGroups)
        plan.groups s3 = (t4, s4, Except.ok updatedGroups)) ∧
      (∃ t9 s8 s9, engMapM (createOrUpdateHost gw updatedInventory.id currentHosts)
        plan.hosts s8 = (t9, s9, Except.ok updatedHosts)) ∧
      GroupsToSchema updatedGroups = Except.ok sgs ∧
      HostsToSchema updatedHosts = Except.ok shs ∧
      snap = buildSnapshot updatedInventory invVars sgs shs := by
  rw [runUpdate] at h
  obtain ⟨t1, s1, updatedInventory, t2r, hx1, h, ht1⟩ := EngM.bind_ok_inv _ _ _ _ _ _ h
  obtain ⟨t2, s2, invVars, t3r, hx2, h, ht2⟩ := EngM.bind_ok_inv _ _ _ _ _ _ h
  obtain ⟨t3, s3, currentGroups, t4r, hx3, h, ht3⟩ := EngM.bind_ok_inv _ _ _ _ _ _ h
  obtain ⟨t4, s4, updatedGroups, t5r, hx4, h, ht4⟩ := EngM.bind_ok_inv _ _ _ _ _ _ h
  obtain ⟨t5, s5, u5, t6r, hx5, h, ht5⟩ := EngM.bind_ok_inv _ _ _ _ _ _ h
  obtain ⟨t6, s6, u6, t7r, hx6, h, ht6⟩ := EngM.bind_ok_inv _ _ _ _ _ _ h
  obtain ⟨t7, s7, sgs, t8r, hx7, h, ht7⟩ := EngM.bind_ok_inv _ _ _ _ _ _ h
  obtain ⟨t8, s8, currentHosts, t9r, hx8, h, ht8⟩ := EngM.bind_ok_inv _ _ _ _ _ _ h
  obtain ⟨t9, s9, updatedHosts, t10r, hx9, h, ht9⟩ := EngM.bind_ok_inv _ _ _ _ _ _ h
  obtain ⟨t10, s10, u10, t11r, hx10, h, ht10⟩ := EngM.bind_ok_inv _ _ _ _ _ _ h
  obtain ⟨t11, s11, u11, t12r, hx11, h, ht11⟩ := EngM.bind_ok_inv _ _ _ _ _ _ h
  obtain ⟨t12, s12, shs, t13r, hx12, h, ht12⟩ := EngM.bind_ok_inv _ _ _ _ _ _ h
  obtain ⟨_, _, hsnap⟩ := pure_ok_inv _ _ _ _ _ h
  obtain ⟨_, _, hsgs⟩ := engOfExcept_ok_inv _ _ _ _ _ hx7
  obtain ⟨_, _, hshs⟩ := engOfExcept_ok_inv _ _ _ _ _ hx12
  exact ⟨updatedInventory, invVars, currentGroups, updatedGroups, sgs, currentHosts,
    updatedHosts, shs, ⟨t4, s3, s4, hx4⟩, ⟨t9, s8, s9, hx9⟩, hsgs, hshs, hsnap⟩

theorem createGroupsPhase_forall₂ (gw : Gateway σ) (invId : Int) (pgs : List PlanGroup)
    (s : σ) (t : List Event) (s1 : σ) (gs : List AapGroup)
    (h : createGroupsPhase gw invId pgs s = (t, s1, Except.ok gs)) :
    List.Forall₂ (fun (pg : PlanGroup) (g : AapGroup) =>
      g.children = pg.children ∧ g.name = pg.name) pgs gs := by
  refine engMapM_ok_forall₂ (createOneGroup gw invId) _ ?_ pgs s t s1 gs h
  intro a s2 t2 s3 b hb
  obtain ⟨_, hch, hn⟩ := createOneGroup_ok gw invId a s2 t2 s3 b hb
  exact ⟨hch, hn⟩

theorem createHostsPhase_forall₂ (gw : Gateway σ) (invId : Int) (phs : List PlanHost)
    (s : σ) (t : List Event) (s1 : σ) (hs : List AapHost)
    (h : createHostsPhase gw invId phs s = (t, s1, Except.ok hs)) :
    List.Forall₂ (fun (ph : PlanHost) (h0 : AapHost) =>
      h0.groups = ph.groups ∧ h0.name = ph.name) phs hs := by
  refine engMapM_ok_forall₂ (createOneHost gw invId) _ ?_ phs s t s1 hs h
  intro a s2 t2 s3 b hb
  obtain ⟨_, hch, hn⟩ := createOneHost_ok gw invId a s2 t2 s3 b hb
  exact ⟨hch, hn⟩

theorem createOrUpdateGroups_forall₂ (gw : Gateway σ) (invId : Int)
    (current : List AapGroup) (pgs : List PlanGroup) (s : σ) (t : List Event) (s1 : σ)
    (gs : List AapGroup)
    (h : engMapM (createOrUpdateGroup gw invId current) pgs s = (t, s1, Except.ok gs)) :
    List.Forall₂ (fun (pg : PlanGroup) (g : AapGroup) =>
      g.children = pg.children ∧ g.name = pg.name) pgs gs := by
  refine engMapM_ok_forall₂ (createOrUpdateGroup gw invId current) _ ?_ pgs s t s1 gs h
  intro a s2 t2 s3 b hb
  obtain ⟨_, hch, hn⟩ := createOrUpdateGroup_calls gw invId current a s2 t2 s3 b hb
  exact ⟨hch, hn⟩

theorem createOrUpdateHosts_forall₂ (gw : Gateway σ) (invId : Int)
    (current : List AapHost) (phs : List PlanHost) (s : σ) (t : List Event) (s1 : σ)
    (hs : List AapHost)
    (h : engMapM (createOrUpdateHost gw invId current) phs s = (t, s1, Except.ok hs)) :
    List.Forall₂ (fun (ph : PlanHost) (h0 : AapHost) =>
      h0.groups = ph.groups ∧ h0.name = ph.name) phs hs := by
  refine engMapM_ok_forall₂ (createOrUpdateHost gw invId current) _ ?_ phs s t s1 hs h
  intro a s2 t2 s3 b hb
  obtain ⟨_, hch, hn⟩ := createOrUpdateHost_calls gw invId current a s2 t2 s3 b hb
  exact ⟨hch, hn⟩

theorem bind_events_all {σ α β : Type} (x : EngM σ α) (f : α → EngM σ β) (C : Event → Prop)
    (hx : ∀ s ev, ev ∈ (x s).1 → C ev) (hf : ∀ a s ev, ev ∈ (f a s).1 → C ev) :
    ∀ s ev, ev ∈ (EngM.bind x f s).1 → C ev := by
  intro s ev h
  rcases EngM.bind_mem_events _ _ _ _ h with h1 | ⟨t1, s1, a, hxs, h2⟩
  · exact hx s ev h1
  · exact hf a s1 ev h2

theorem runCreate_no_fetch (gw : Gateway σ) (plan : Plan) (s : σ) (ev : Event)
    (h : ev ∈ (runCreate gw plan s).1) :
    ev.call.isFetchChildren = false ∧ ev.call.isFetchHostGroups = false := by
  rw [runCreate] at h
  refine bind_events_all _ _ (fun ev0 => ev0.call.isFetchChildren = false ∧ ev0.call.isFetchHostGroups = false) ?_ ?_ s ev h
  · intro s2 ev2 h2
    rw [gwCall_mem_events _ _ _ _ _ _ h2]
    exact ⟨rfl, rfl⟩
  · intro newInventory s2 ev2 h2
    refine bind_events_all _ _ (fun ev0 => ev0.call.isFetchChildren = false ∧ ev0.call.isFetchHostGroups = false) ?_ ?_ s2 ev2 h2
    · intro s3 ev3 h3
      rw [engOfExcept_events] at h3
      cases h3
    · intro invVars s3 ev3 h3
      refine bind_events_all _ _ (fun ev0 => ev0.call.isFetchChildren = false ∧ ev0.call.isFetchHostGroups = false) ?_ ?_ s3 ev3 h3
      · intro s4 ev4 h4
        obtain ⟨g, hg⟩ := createGroupsPhase_events gw newInventory.id plan.groups s4 ev4 h4
        rw [hg]
        exact ⟨rfl, rfl⟩
      · intro newGroups s4 ev4 h4
        refine bind_events_all _ _ (fun ev0 => ev0.call.isFetchChildren = false ∧ ev0.call.isFetchHostGroups = false) ?_ ?_ s4 ev4 h4
        · intro s5 ev5 h5
          obtain ⟨p, c, hg, _, _⟩ := associateChildrenPhase_events gw newGroups s5 ev5 h5
          rw [hg]
          exact ⟨rfl, rfl⟩
        · intro u5 s5 ev5 h5
          refine bind_events_all _ _ (fun ev0 => ev0.call.isFetchChildren = false ∧ ev0.call.isFetchHostGroups = false) ?_ ?_ s5 ev5 h5
          · intro s6 ev6 h6
            rw [engOfExcept_events] at h6
            cases h6
          · intro sgs s6 ev6 h6
            refine bind_events_all _ _ (fun ev0 => ev0.call.isFetchChildren = false ∧ ev0.call.isFetchHostGroups = false) ?_ ?_ s6 ev6 h6
            · intro s7 ev7 h7
              obtain ⟨h2, hg⟩ :=
                createHostsPhase_events gw newInventory.id plan.hosts s7 ev7 h7
              rw [hg]
              exact ⟨rfl, rfl⟩
            · intro newHosts s7 ev7 h7
              refine bind_events_all _ _ (fun ev0 => ev0.call.isFetchChildren = false ∧ ev0.call.isFetchHostGroups = false) ?_ ?_ s7 ev7 h7
              · intro s8 ev8 h8
                obtain ⟨p, c, hg, _, _⟩ :=
                  associateHostGroupsPhase_events gw newGroups newHosts s8 ev8 h8
                rw [hg]
                exact ⟨rfl, rfl⟩
              · intro u8 s8 ev8 h8
                refine bind_events_all _ _ (fun ev0 => ev0.call.isFetchChildren = false ∧ ev0.call.isFetchHostGroups = false) ?_ ?_ s8 ev8 h8
                · intro s9 ev9 h9
                  rw [engOfExcept_events] at h9
                  cases h9
                · intro shs s9 ev9 h9
                  exact absurd h9 (pure_mem_events _ _ _)

theorem flatten_singleton_map {α : Type u} (l : List α) (f : α → Call) :
    (l.map (fun a => [f a])).flatten = l.map f := by
  induction l with
  | nil => rfl
  | cons a as ih => simp [ih]

theorem GroupIdFromName_unique (name : String) (groups : List AapGroup) (g : AapGroup)
    (hmem : g ∈ groups) (hname : g.name = name)
    (huniq : ∀ g2 ∈ groups, g2.name = name → g2 = g) :
    GroupIdFromName name groups = Except.ok g.id := by
  induction groups with
  | nil => cases hmem
  | cons g1 rest ih =>
    rw [GroupIdFromName]
    by_cases hn : g1.name = name
    · rw [if_pos hn]
      rw [huniq g1 (List.mem_cons_self g1 rest) hn]
    · rw [if_neg hn]
      rcases List.mem_cons.mp hmem with he | hm
      · exact absurd (he ▸ hname) hn
      · exact ih hm (fun g2 h2 hn2 => huniq g2 (List.mem_cons_of_mem g1 h2) hn2)

theorem GroupIdFromName_absent (name : String) (groups : List AapGroup)
    (h : ∀ g ∈ groups, g.name ≠ name) :
    GroupIdFromName name groups =
      Except.error ("unable to retrieve ID for group named " ++ name) := by
  induction groups with
  | nil => rfl
  | cons g rest ih =>
    rw [GroupIdFromName, if_neg (h g (List.mem_cons_self g rest))]
    exact ih (fun g2 h2 => h g2 (List.mem_cons_of_mem g h2))

theorem addChildStep_add_events (gw : Gateway σ) (ug : List AapGroup) (g : AapGroup)
    (cc : List AapGroup) (n : String) (s : σ) (ev : Event)
    (h : ev ∈ (addChildStep gw ug g cc n s).1) :
    ∃ i, ev.call = Call.addChildToGroup g.id i ∧ GroupIdFromName n ug = Except.ok i := by
  unfold addChildStep at h
  by_cases hmem : cc.any (fun c => c.name == n)
  · rw [if_pos hmem] at h
    exact absurd h (pure_mem_events _ _ _)
  · rw [if_neg hmem] at h
    cases hres : GroupIdFromName n ug with
    | error e =>
      rw [hres] at h
      exact absurd h (abort_mem_events _ _ _)
    | ok i =>
      rw [hres] at h
      exact ⟨i, gwCallUnit_mem_events _ _ _ _ _ h, rfl⟩

theorem addHostGroupStep_add_events (gw : Gateway σ) (ug : List AapGroup) (h0 : AapHost)
    (chg : List AapGroup) (n : String) (s : σ) (ev : Event)
    (h : ev ∈ (addHostGroupStep gw ug h0 chg n s).1) :
    ∃ i, ev.call = Call.addGroupToHost h0.id i ∧ GroupIdFromName n ug = Except.ok i := by
  unfold addHostGroupStep at h
  by_cases hmem : chg.any (fun g => g.name == n)
  · rw [if_pos hmem] at h
    exact absurd h (pure_mem_events _ _ _)
  · rw [if_neg hmem] at h
    cases hres : GroupIdFromName n ug with
    | error e =>
      rw [hres] at h
      exact absurd h (abort_mem_events _ _ _)
    | ok i =>
      rw [hres] at h
      exact ⟨i, gwCallUnit_mem_events _ _ _ _ _ h, rfl⟩

theorem removeChildStep_events (gw : Gateway σ) (g : AapGroup) (child : AapGroup)
    (s : σ) (ev : Event) (h : ev ∈ (removeChildStep gw g child s).1) :
    ev.call = Call.removeChildFromGroup g.id child.id := by
  unfold removeChildStep at h
  by_cases hmem : g.children.contains child.name
  · rw [if_pos hmem] at h
    exact absurd h (pure_mem_events _ _ _)
  · rw [if_neg hmem] at h
    exact gwCallUnit_mem_events _ _ _ _ _ h

theorem removeHostGroupStep_events (gw : Gateway σ) (h0 : AapHost) (hostGroup : AapGroup)
    (s : σ) (ev : Event) (h : ev ∈ (removeHostGroupStep gw h0 hostGroup s).1) :
    ev.call = Call.removeGroupFromHost h0.id hostGroup.id := by
  unfold removeHostGroupStep at h
  by_cases hmem : h0.groups.contains hostGroup.name
  · rw [if_pos hmem] at h
    exact absurd h (pure_mem_events _ _ _)
  · rw [if_neg hmem] at h
    exact gwCallUnit_mem_events _ _ _ _ _ h

theorem reconcileGroupChildren_add_source (gw : Gateway σ) (ug : List AapGroup)
    (g : AapGroup) (s : σ) (ev : Event) (h : ev ∈ (reconcileGroupChildren gw ug g s).1) :
    ∀ p c, ev.call = Call.addChildToGroup p c →
      p = g.id ∧ ∃ n ∈ g.children, GroupIdFromName n ug = Except.ok c := by
  unfold reconcileGroupChildren at h
  rcases EngM.bind_mem_events _ _ _ _ h with h1 | ⟨t1, s1, cc, hx, h2⟩
  · intro p c hc
    rw [gwCall_mem_events _ _ _ _ _ _ h1] at hc
    cases hc
  · rcases EngM.bind_mem_events _ _ _ _ h2 with h3 | ⟨t2, s2, u, hy, h4⟩
    · have := engForM_events_mem (addChildStep gw ug g cc)
        (fun ev3 => ∀ p c, ev3.call = Call.addChildToGroup p c →
          p = g.id ∧ ∃ n ∈ g.children, GroupIdFromName n ug = Except.ok c)
        g.children ?_ s1 ev h3
      · exact this
      · intro n hn s3 ev3 h5
        obtain ⟨i, hcall, hres⟩ := addChildStep_add_events gw ug g cc n s3 ev3 h5
        intro p c hc
        rw [hcall] at hc
        injection hc with hp hcc
        subst hp
        subst hcc
        exact ⟨rfl, n, hn, hres⟩
    · intro p c hc
      have hclass := engForM_events_mem (removeChildStep gw g)
        (fun ev3 => ∃ child, ev3.call = Call.removeChildFromGroup g.id child)
        cc ?_ s2 ev h4
      · obtain ⟨child, hcall⟩ := hclass
        rw [hcall] at hc
        cases hc
      · intro child hchild s3 ev3 h5
        exact ⟨child.id, removeChildStep_events gw g child s3 ev3 h5⟩

theorem reconcileHostGroups_add_source (gw : Gateway σ) (ug : List AapGroup)
    (h0 : AapHost) (s : σ) (ev : Event) (h : ev ∈ (reconcileHostGroups gw ug h0 s).1) :
    ∀ p c, ev.call = Call.addGroupToHost p c →
      p = h0.id ∧ ∃ n ∈ h0.groups, GroupIdFromName n ug = Except.ok c := by
  unfold reconcileHostGroups at h
  rcases EngM.bind_mem_events _ _ _ _ h with h1 | ⟨t1, s1, chg, hx, h2⟩
  · intro p c hc
    rw [gwCall_mem_events _ _ _ _ _ _ h1] at hc
    cases hc
  · rcases EngM.bind_mem_events _ _ _ _ h2 with h3 | ⟨t2, s2, u, hy, h4⟩
    · have := engForM_events_mem (addHostGroupStep gw ug h0 chg)
        (fun ev3 => ∀ p c, ev3.call = Call.addGroupToHost p c →
          p = h0.id ∧ ∃ n ∈ h0.groups, GroupIdFromName n ug = Except.ok c)
        h0.groups ?_ s1 ev h3
      · exact this
      · intro n hn s3 ev3 h5
        obtain ⟨i, hcall, hres⟩ := addHostGroupStep_add_events gw ug h0 chg n s3 ev3 h5
        intro p c hc
        rw [hcall] at hc
        injection hc with hp hcc
        subst hp
        subst hcc
        exact ⟨rfl, n, hn, hres⟩
    · intro p c hc
      have hclass := engForM_events_mem (removeHostGroupStep gw h0)
        (fun ev3 => ∃ child, ev3.call = Call.removeGroupFromHost h0.id child)
        chg ?_ s2 ev h4
      · obtain ⟨child, hcall⟩ := hclass
        rw [hcall] at hc
        cases hc
      · intro child hchild s3 ev3 h5
        exact ⟨child.id, removeHostGroupStep_events gw h0 child s3 ev3 h5⟩

theorem roundtrip_core (m : List (String × String)) (hs : List.Pairwise strictKeyLt m) :
    VariablesStringToMap (VariablesMapToString m) =
      Except.ok (if m.isEmpty then none else some m) := by
  unfold VariablesStringToMap VariablesMapToString
  rw [goUnmarshal_goMarshal m hs]
  dsimp only
  cases m with
  | nil => rfl
  | cons p rest =>
    rw [if_pos (by simp)]
    rw [canonical_sort_eq _ hs]
    rfl

/-- C4: variable codec round-trip law. For every string-to-string mapping,
given in its canonical key-sorted entry form, decoding the encoded wire
string recovers exactly the same mapping: the nonempty case decodes to the
known map with the same entries, the empty case decodes to the null map
value, which is the representation of the empty mapping, and in both cases
every key looks up to the same value as in the original mapping and no
decode error occurs. -/
theorem claim_c4_codec_roundtrip (m : List (String × String))
    (hs : List.Pairwise strictKeyLt m) :
    VariablesStringToMap (VariablesMapToString m) =
      Except.ok (if m.isEmpty then none else some m) ∧
    (∀ k, decodeLookup (VariablesMapToString m) k = m.lookup k) := by
  have hcore := roundtrip_core m hs
  refine ⟨hcore, ?_⟩
  intro k
  rw [decodeLookup, hcore]
  cases m with
  | nil => rfl
  | cons p rest => rw [if_neg (by simp)]; rfl

theorem claim_c4_witness :
    List.Pairwise strictKeyLt [("a", "b"), ("c", "d")] ∧
    (VariablesStringToMap (VariablesMapToString [("a", "b"), ("c", "d")]) =
      Except.ok (if ([("a", "b"), ("c", "d")] : List (String × String)).isEmpty then none
        else some [("a", "b"), ("c", "d")]) ∧
    ∀ k, decodeLookup (VariablesMapToString [("a", "b"), ("c", "d")]) k =
      ([("a", "b"), ("c", "d")] : List (String × String)).lookup k) :=
  ⟨by decide, claim_c4_codec_roundtrip [("a", "b"), ("c", "d")] (by decide)⟩

/-- C5 counterexample: encoding the empty mapping yields exactly the
empty-object string (the braces written with hex escapes), not an absent
form, and decoding the empty wire string yields an error, not the empty
mapping. -/
theorem claim_c5_counterexample :
    VariablesMapToString [] = "\x7b\x7d" ∧
    VariablesStringToMap "" =
      Except.error
        ("Could not convert variables string to map, unexpected error: invalid JSON") := by
  constructor
  · decide
  · decide

/-- C5 amended: encoding the empty mapping yields the empty-object string;
decoding the empty-object string or the JSON null wire form yields the
null map value (the representation of the empty mapping) with no error,
while decoding empty input fails with an error. -/
theorem claim_c5_empty_encoding_behaviour :
    VariablesMapToString [] = "\x7b\x7d" ∧
    VariablesStringToMap "\x7b\x7d" = Except.ok none ∧
    VariablesStringToMap "null" = Except.ok none ∧
    VariablesStringToMap "" =
      Except.error
        ("Could not convert variables string to map, unexpected error: invalid JSON") := by
  refine ⟨by decide, by decide, by decide, by decide⟩

/-- C7: name resolution contract. When exactly one group of the working set
carries the requested name, resolution returns that group's remote id with
no error; when no group carries the name, it fails with the NotFound-style
error and returns no id. -/
theorem claim_c7_name_resolution (name : String) (groups : List AapGroup) :
    (∀ g, g ∈ groups → g.name = name →
      (∀ g2 ∈ groups, g2.name = name → g2 = g) →
      GroupIdFromName name groups = Except.ok g.id) ∧
    ((∀ g ∈ groups, g.name ≠ name) →
      GroupIdFromName name groups =
        Except.error ("unable to retrieve ID for group named " ++ name)) :=
  ⟨fun g hm hn hu => GroupIdFromName_unique name groups g hm hn hu,
   fun h => GroupIdFromName_absent name groups h⟩

theorem claim_c7_witness :
    GroupIdFromName "b" [fixGroup 1 "a" [], fixGroup 2 "b" []] = Except.ok 2 ∧
    GroupIdFromName "zz" [fixGroup 1 "a" []] =
      Except.error ("unable to retrieve ID for group named zz") :=
  ⟨(claim_c7_name_resolution "b" [fixGroup 1 "a" [], fixGroup 2 "b" []]).1
      (fixGroup 2 "b" []) (by decide) (by decide) (by decide),
   (claim_c7_name_resolution "zz" [fixGroup 1 "a" []]).2 (by decide)⟩

/-- C1: association set reconciliation in the update path. For a reconciled
group, given the children reported by the remote gateway, the successful
reconciliation issues exactly the fetch followed by one associate call for
each declared child name absent from the current set, in declaration order,
then one disassociate call for each current child whose name is no longer
declared, in listing order, and no call at all for names present in both
sets; and symmetrically for the group memberships of a reconciled host. -/
theorem claim_c1_association_set_reconciliation {σ : Type} (gw : Gateway σ)
    (ug : List AapGroup) :
    (∀ (g : AapGroup) (s : σ) (t : List Event) (s1 : σ) (cc : List AapGroup) (s2 : σ),
      gw.getGroupChildren g.id s = Except.ok (cc, s2) →
      reconcileGroupChildren gw ug g s = (t, s1, Except.ok ()) →
      t.map Event.call =
        Call.getGroupChildren g.id ::
        ((g.children.filter (fun n => !cc.any (fun c => c.name == n))).map
          (fun n => Call.addChildToGroup g.id (resolvedId n ug)) ++
         (cc.filter (fun c => !g.children.contains c.name)).map
          (fun c => Call.removeChildFromGroup g.id c.id))) ∧
    (∀ (h0 : AapHost) (s : σ) (t : List Event) (s1 : σ) (chg : List AapGroup) (s2 : σ),
      gw.getHostGroups h0.id s = Except.ok (chg, s2) →
      reconcileHostGroups gw ug h0 s = (t, s1, Except.ok ()) →
      t.map Event.call =
        Call.getHostGroups h0.id ::
        ((h0.groups.filter (fun n => !chg.any (fun g => g.name == n))).map
          (fun n => Call.addGroupToHost h0.id (resolvedId n ug)) ++
         (chg.filter (fun g => !h0.groups.contains g.name)).map
          (fun g => Call.removeGroupFromHost h0.id g.id))) :=
  ⟨fun g s t s1 cc s2 hget h => reconcileGroupChildren_calls gw ug g s t s1 cc s2 hget h,
   fun h0 s t s1 chg s2 hget h => reconcileHostGroups_calls gw ug h0 s t s1 chg s2 hget h⟩

theorem claim_c1_witness :
    gwC1.getGroupChildren c1G.id 0 = Except.ok (c1Current, 0) ∧
    reconcileGroupChildren gwC1 c1Updated c1G 0 = (c1Trace, 2, Except.ok ()) ∧
    c1Trace.map Event.call =
      Call.getGroupChildren c1G.id ::
      ((c1G.children.filter (fun n => !c1Current.any (fun c => c.name == n))).map
        (fun n => Call.addChildToGroup c1G.id (resolvedId n c1Updated)) ++
       (c1Current.filter (fun c => !c1G.children.contains c.name)).map
        (fun c => Call.removeChildFromGroup c1G.id c.id)) ∧
    c1Trace.map Event.call =
      [Call.getGroupChildren 10, Call.addChildToGroup 10 13,
       Call.removeChildFromGroup 10 1] :=
  ⟨by decide, by decide,
   (claim_c1_association_set_reconciliation gwC1 c1Updated).1 c1G 0 c1Trace 2 c1Current 0
     (by decide) (by decide),
   by decide⟩

/-- C2: entity-level diff in the update path is keyed by identity. A
successful create-or-update step on a declared group issues exactly one
update call by the carried id when that id occurs in the just-fetched
current remote set and exactly one create call otherwise, so a group
deleted out of band is recreated rather than failing; a successful stale
deletion phase deletes exactly the current remote groups whose ids are
absent from the reconciled set; and structurally the same for hosts. -/
theorem claim_c2_entity_diff_by_id {σ : Type} (gw : Gateway σ) (invId : Int) :
    (∀ (current : List AapGroup) (pg : PlanGroup) (s : σ) (t : List Event) (s1 : σ)
      (b : AapGroup),
      createOrUpdateGroup gw invId current pg s = (t, s1, Except.ok b) →
      t.map Event.call =
        [if current.any (fun cg => cg.id == pg.id) then
          Call.updateGroup pg.id (groupRequest invId pg)
         else Call.createGroup (groupRequest invId pg)]) ∧
    (∀ (current us : List AapGroup) (s : σ) (t : List Event) (s1 : σ),
      deleteAbsentGroupsPhase gw current us s = (t, s1, Except.ok ()) →
      t.map Event.call =
        (current.filter (fun cg => !us.any (fun g => g.id == cg.id))).map
          (fun cg => Call.deleteGroup cg.id)) ∧
    (∀ (current : List AapHost) (ph : PlanHost) (s : σ) (t : List Event) (s1 : σ)
      (b : AapHost),
      createOrUpdateHost gw invId current ph s = (t, s1, Except.ok b) →
      t.map Event.call =
        [if current.any (fun ch => ch.id == ph.id) then
          Call.updateHost ph.id (hostRequest invId ph)
         else Call.createHost (hostRequest invId ph)]) ∧
    (∀ (current us : List AapHost) (s : σ) (t : List Event) (s1 : σ),
      deleteAbsentHostsPhase gw current us s = (t, s1, Except.ok ()) →
      t.map Event.call =
        (current.filter (fun ch => !us.any (fun h2 => h2.id == ch.id))).map
          (fun ch => Call.deleteHost ch.id)) :=
  ⟨fun current pg s t s1 b h =>
    (createOrUpdateGroup_calls gw invId current pg s t s1 b h).1,
   fun current us s t s1 h => deleteAbsentGroupsPhase_calls gw current us s t s1 h,
   fun current ph s t s1 b h =>
    (createOrUpdateHost_calls gw invId current ph s t s1 b h).1,
   fun current us s t s1 h => deleteAbsentHostsPhase_calls gw current us s t s1 h⟩

theorem claim_c2_witness :
    c2Run = (c2Run.1, c2Run.2.1, Except.ok c2Group) ∧
    c2Run.1.map Event.call =
      [if ([] : List AapGroup).any (fun cg => cg.id == c2Pg.id) then
        Call.updateGroup c2Pg.id (groupRequest 1 c2Pg)
       else Call.createGroup (groupRequest 1 c2Pg)] ∧
    c2Run.1.map Event.call = [Call.createGroup (groupRequest 1 c2Pg)] ∧
    c2Run.2.2 = Except.ok c2Group ∧
    c2DelRun = (c2DelRun.1, c2DelRun.2.1, Except.ok ()) ∧
    c2DelRun.1.map Event.call =
      ([fixGroup 3 "z" []].filter (fun cg =>
        !([] : List AapGroup).any (fun g => g.id == cg.id))).map
        (fun cg => Call.deleteGroup cg.id) ∧
    c2DelRun.1.map Event.call = [Call.deleteGroup 3] :=
  ⟨by decide,
   (claim_c2_entity_diff_by_id gwC2 1).1 [] c2Pg 0 c2Run.1 c2Run.2.1 c2Group (by decide),
   by decide, by decide, by decide,
   (claim_c2_entity_diff_by_id gwC2 1).2.1 [fixGroup 3 "z" []] [] 0 c2DelRun.1 c2DelRun.2.1
     (by decide),
   by decide⟩

/-- C3: create-path ordering invariant. Walking the full trace of any create
run with an empty past, every association call, whether adding a child to a
group or adding a group to a host, is preceded in the trace by successful
creation events for both of its endpoints carrying their assigned remote
ids: all groups are created before any child association, and each host is
created before its group associations are issued. -/
theorem claim_c3_create_ordering {σ : Type} (gw : Gateway σ) (plan : Plan) (s : σ) :
    AssocAfterCreates [] ((runCreate gw plan s).1) :=
  runCreate_ordering gw plan s

/-- C6 counterexample: a successful create run against a gateway whose
child-listing endpoint reports a single group named X issues no children
listing and no host-group listing call at all, and the persisted snapshot
carries the plan-declared children (group a with child b, group b with the
null collapse of no children), not the name the gateway would report: the
snapshot comes from the create path's own bookkeeping, not from a fresh
fetch of remote state. -/
theorem claim_c6_counterexample :
    snapRun.1.all
      (fun ev => !ev.call.isFetchChildren && !ev.call.isFetchHostGroups) = true ∧
    snapRun.2.2 = Except.ok snapResult ∧
    snapResult.groups.map (fun sg => (sg.name, sg.children)) =
      [("a", some ["b"]), ("b", (none : Option (List String)))] ∧
    gwSnap.getGroupChildren 101 0 = Except.ok ([fixGroup 5 "X" []], 0) ∧
    [fixGroup 5 "X" []].map (fun g => g.name) ≠ ["b"] := by
  refine ⟨by decide, by decide, by decide, by decide, by decide⟩

/-- C6 amended: on a successful create run the persisted snapshot is built
from the create path's bookkeeping, not fetched fresh: the run issues no
children listing and no host-group listing call, and the snapshot's groups
and hosts correspond pointwise to the declared plan entries, each carrying
exactly the plan-declared children and group names under the null collapse
of the empty list. -/
theorem claim_c6_snapshot_from_plan {σ : Type} (gw : Gateway σ) (plan : Plan) (s : σ)
    (t : List Event) (sf : σ) (snap : Snapshot)
    (h : runCreate gw plan s = (t, sf, Except.ok snap)) :
    (∀ ev ∈ t, ev.call.isFetchChildren = false ∧ ev.call.isFetchHostGroups = false) ∧
    List.Forall₂ (fun (pg : PlanGroup) (sg : SchemaGroup) =>
      sg.name = pg.name ∧
      sg.children = (if pg.children.isEmpty then none else some pg.children))
      plan.groups snap.groups ∧
    List.Forall₂ (fun (ph : PlanHost) (sh : SchemaHost) =>
      sh.name = ph.name ∧
      sh.groups = (if ph.groups.isEmpty then none else some ph.groups))
      plan.hosts snap.hosts := by
  obtain ⟨newInventory, invVars, newGroups, sgs, newHosts, shs, ⟨t3, s2, s3, hg⟩,
    ⟨t6, s5, s6, hh⟩, hsgs, hshs, hsnap⟩ := runCreate_ok_inv gw plan s t sf snap h
  refine ⟨?_, ?_, ?_⟩
  · intro ev hev
    have ht : ev ∈ (runCreate gw plan s).1 := by rw [h]; exact hev
    exact runCreate_no_fetch gw plan s ev ht
  · have h1 := createGroupsPhase_forall₂ gw newInventory.id plan.groups s2 t3 s3 newGroups hg
    have h2 := GroupsToSchema_forall₂ newGroups sgs hsgs
    have hcomp := forall₂_compose
      (fun (pg : PlanGroup) (g : AapGroup) => g.children = pg.children ∧ g.name = pg.name)
      (fun (g : AapGroup) (sg : SchemaGroup) =>
        sg.children = (if g.children.isEmpty then none else some g.children) ∧
        sg.name = g.name)
      (fun (pg : PlanGroup) (sg : SchemaGroup) =>
        sg.name = pg.name ∧
        sg.children = (if pg.children.isEmpty then none else some pg.children))
      (fun a b c hp hq => ⟨hq.2.trans hp.2, by rw [hq.1, hp.1]⟩)
      plan.groups newGroups sgs h1 h2
    rw [hsnap]
    exact hcomp
  · have h1 := createHostsPhase_forall₂ gw newInventory.id plan.hosts s5 t6 s6 newHosts hh
    have h2 := HostsToSchema_forall₂ newHosts shs hshs
    have hcomp := forall₂_compose
      (fun (ph : PlanHost) (h0 : AapHost) => h0.groups = ph.groups ∧ h0.name = ph.name)
      (fun (h0 : AapHost) (sh : SchemaHost) =>
        sh.groups = (if h0.groups.isEmpty then none else some h0.groups) ∧
        sh.name = h0.name)
      (fun (ph : PlanHost) (sh : SchemaHost) =>
        sh.name = ph.name ∧
        sh.groups = (if ph.groups.isEmpty then none else some ph.groups))
      (fun a b c hp hq => ⟨hq.2.trans hp.2, by rw [hq.1, hp.1]⟩)
      plan.hosts newHosts shs h1 h2
    rw [hsnap]
    exact hcomp

theorem claim_c6_witness :
    runCreate gwSnap fixPlan 0 = (snapRun.1, snapRun.2.1, Except.ok snapResult) ∧
    ((∀ ev ∈ snapRun.1,
        ev.call.isFetchChildren = false ∧ ev.call.isFetchHostGroups = false) ∧
     List.Forall₂ (fun (pg : PlanGroup) (sg : SchemaGroup) =>
       sg.name = pg.name ∧
       sg.children = (if pg.children.isEmpty then none else some pg.children))
       fixPlan.groups snapResult.groups ∧
     List.Forall₂ (fun (ph : PlanHost) (sh : SchemaHost) =>
       sh.name = ph.name ∧
       sh.groups = (if ph.groups.isEmpty then none else some ph.groups))
       fixPlan.hosts snapResult.hosts) :=
  ⟨by decide,
   claim_c6_snapshot_from_plan gwSnap fixPlan 0 snapRun.1 snapRun.2.1 snapResult (by decide)⟩

/-- C8: update-path association resolution source. In the child
reconciliation phase over the just-reconciled group set, every associate
call added a declared child of one of the reconciled groups and its id was
resolved by name lookup in that reconciled set itself; likewise, in the
host membership reconciliation phase every associate call resolved the
declared group name in the reconciled group set, never in the remote
current set. -/
theorem claim_c8_resolution_against_reconciled_set {σ : Type} (gw : Gateway σ)
    (ug : List AapGroup) (uh : List AapHost) :
    (∀ (s : σ) (ev : Event), ev ∈ (reconcileChildrenPhase gw ug s).1 →
      ∀ p c, ev.call = Call.addChildToGroup p c →
        ∃ g ∈ ug, p = g.id ∧ ∃ n ∈ g.children, GroupIdFromName n ug = Except.ok c) ∧
    (∀ (s : σ) (ev : Event), ev ∈ (reconcileHostGroupsPhase gw ug uh s).1 →
      ∀ p c, ev.call = Call.addGroupToHost p c →
        ∃ h0 ∈ uh, p = h0.id ∧ ∃ n ∈ h0.groups, GroupIdFromName n ug = Except.ok c) := by
  constructor
  · intro s ev hev
    refine engForM_events_mem (reconcileGroupChildren gw ug)
      (fun ev0 => ∀ p c, ev0.call = Call.addChildToGroup p c →
        ∃ g ∈ ug, p = g.id ∧ ∃ n ∈ g.children, GroupIdFromName n ug = Except.ok c)
      ug ?_ s ev hev
    intro g hg s2 ev2 hev2 p c hc
    obtain ⟨hp, hex⟩ := reconcileGroupChildren_add_source gw ug g s2 ev2 hev2 p c hc
    exact ⟨g, hg, hp, hex⟩
  · intro s ev hev
    refine engForM_events_mem (reconcileHostGroups gw ug)
      (fun ev0 => ∀ p c, ev0.call = Call.addGroupToHost p c →
        ∃ h0 ∈ uh, p = h0.id ∧ ∃ n ∈ h0.groups, GroupIdFromName n ug = Except.ok c)
      uh ?_ s ev hev
    intro h0 hh s2 ev2 hev2 p c hc
    obtain ⟨hp, hex⟩ := reconcileHostGroups_add_source gw ug h0 s2 ev2 hev2 p c hc
    exact ⟨h0, hh, hp, hex⟩

theorem claim_c8_witness :
    Event.mk (Call.addChildToGroup 10 11) Outcome.okResp ∈
      (reconcileChildrenPhase gwC8 c8Updated 0).1 ∧
    (∃ g ∈ c8Updated, (10 : Int) = g.id ∧
      ∃ n ∈ g.children, GroupIdFromName n c8Updated = Except.ok 11) ∧
    GroupIdFromName "A" c8Updated = Except.ok 11 ∧
    GroupIdFromName "A" c8Current = Except.ok 2 :=
  ⟨by decide,
   (claim_c8_resolution_against_reconciled_set gwC8 c8Updated []).1 0
     (Event.mk (Call.addChildToGroup 10 11) Outcome.okResp) (by decide) 10 11 rfl,
   by decide, by decide⟩

/-- C9: fail-fast error propagation. Both reconciliation passes are well
behaved: a successful run has only successful remote calls; in every run
each issued call except possibly the last succeeded, so the first failing
call ends the pass with no further remote calls and no retry; and whenever
a run fails right at a failing call, the error surfaced to the caller is
that call's error message behind the context prefix of the failing
operation. -/
theorem claim_c9_fail_fast {σ : Type} (gw : Gateway σ) (plan : Plan) :
    WellBehaved (runCreate gw plan) ∧ WellBehaved (runUpdate gw plan) :=
  ⟨wb_runCreate gw plan, wb_runUpdate gw plan⟩

theorem claim_c9_witness :
    OkUntilLast (runCreate failGw fixPlan 0).1 ∧
    ((runCreate failGw fixPlan 0).1.map Event.call).length = 2 ∧
    (runCreate failGw fixPlan 0).2.2 = Except.error
      ("Could not create AAP group, unexpected error: status: 500, body: boom") :=
  ⟨(claim_c9_fail_fast failGw fixPlan).1.2.1 0, by decide, by decide⟩

/-- C10: atomic state persistence. The persisted Terraform state is written
only at the very end of a pass: a create or update run that fails leaves
the previously persisted state entirely unchanged, a successful run
replaces it with the run's snapshot, and a failing run may already have
issued successful remote mutations that are not rolled back, as the
concrete failing create run shows: its first remote call succeeded and yet
the prior state persists. -/
theorem claim_c10_atomic_state_persistence (prev : Option Snapshot) :
    (∀ (σ : Type) (gw : Gateway σ) (plan : Plan) (s : σ) (e : String),
      (runCreate gw plan s).2.2 = Except.error e →
      persistedState prev (runCreate gw plan s).2.2 = prev) ∧
    (∀ (σ : Type) (gw : Gateway σ) (plan : Plan) (s : σ) (snap : Snapshot),
      (runCreate gw plan s).2.2 = Except.ok snap →
      persistedState prev (runCreate gw plan s).2.2 = some snap) ∧
    (∀ (σ : Type) (gw : Gateway σ) (plan : Plan) (s : σ) (e : String),
      (runUpdate gw plan s).2.2 = Except.error e →
      persistedState prev (runUpdate gw plan s).2.2 = prev) ∧
    (∀ (σ : Type) (gw : Gateway σ) (plan : Plan) (s : σ) (snap : Snapshot),
      (runUpdate gw plan s).2.2 = Except.ok snap →
      persistedState prev (runUpdate gw plan s).2.2 = some snap) ∧
    ((runCreate failGw fixPlan 0).1.head?.map Event.hasErr = some false ∧
      persistedState prev (runCreate failGw fixPlan 0).2.2 = prev) := by
  refine ⟨?_, ?_, ?_, ?_, by decide, rfl⟩
  · intro σ gw plan s e he
    rw [he, persistedState]
  · intro σ gw plan s snap hs
    rw [hs, persistedState]
  · intro σ gw plan s e he
    rw [he, persistedState]
  · intro σ gw plan s snap hs
    rw [hs, persistedState]

theorem claim_c10_witness :
    (runCreate failGw fixPlan 0).2.2 = Except.error
      ("Could not create AAP group, unexpected error: status: 500, body: boom") ∧
    persistedState (some snapResult) (runCreate failGw fixPlan 0).2.2 = some snapResult ∧
    c10Run.2.2 = Except.ok c10Snap ∧
    persistedState (some snapResult) c10Run.2.2 = some c10Snap :=
  ⟨by decide,
   (claim_c10_atomic_state_persistence (some snapResult)).1 Nat failGw fixPlan 0
     ("Could not create AAP group, unexpected error: status: 500, body: boom") (by decide),
   by decide,
   (claim_c10_atomic_state_persistence (some snapResult)).2.2.2.1 Nat (fixGw [] [] [] [])
     fixPlan 0 c10Snap (by decide)⟩
